import Mathlib

/-!
Verification of the mission reconciliation and resolution engine of the
problem-solving backend.  The definitions below are a shallow embedding of
the Python source:

* `services/position_service/check_handler.py`   (CheckHandler)
* `services/mission_service/mission_creator.py`  (MissionCreator)
* `services/ingestion_service/rebuild_udc_inventory.py`

SQLAlchemy rows become Lean structures, the session becomes an explicit
`DB` value threaded through the operations, `Decimal` quantities become
`Int` (exact decimal arithmetic), nullable columns become `Option`, and
Python string statuses are kept as literal strings.  Autoincrement ids are
modelled with explicit `next...Id` counters.
-/

namespace PSB

/-- `mission_items` row (models.py `MissionItem`).  `qty_found` is NOT NULL
with default 0, so it is a plain `Int` (the Python `or Decimal('0')`
coalescing is the identity in this model). -/
structure MissionItem where
  id : Nat
  mission_id : Nat
  n_ordine : String
  n_lista : Int
  sku : String
  listone : Option Int
  qty_ordered : Int
  qty_shipped : Int
  qty_missing : Int
  qty_found : Int
  is_resolved : Bool
  deriving Repr, DecidableEq

/-- `position_checks` row (models.py `PositionCheck`).  Timestamps are not
relevant to any claim and are omitted; `checked_by`/`notes` are kept since
the handler writes them. -/
structure PositionCheck where
  id : Nat
  mission_id : Nat
  mission_item_id : Nat
  udc : Option String
  listone : Option Int
  position_code : String
  status : String
  found_in_position : Option Bool
  qty_found : Option Int
  checked_by : Option String
  notes : Option String
  deriving Repr, DecidableEq

/-- `missions` row (models.py `Mission`).  `started_at`/`completed_at` are
modelled as "has been stamped" booleans; the code only ever sets them. -/
structure Mission where
  id : Nat
  mission_code : String
  cesta : String
  reference_n_lista : Option Int
  status : String
  created_by : String
  started_at_set : Bool
  completed_at_set : Bool
  deriving Repr, DecidableEq

/-- `orders` row. -/
structure Order where
  id : Nat
  order_number : String
  deriving Repr, DecidableEq

/-- `order_items` row (fields used by the resolver). -/
structure OrderItem where
  id : Nat
  order_id : Nat
  n_lista : Int
  listone : Option Int
  sku : String
  qty_ordered : Int
  deriving Repr, DecidableEq

/-- `udc_inventory` row (fields used by position-check generation). -/
structure UDCInventory where
  udc : String
  sku : String
  listone : Int
  qty : Int
  deriving Repr, DecidableEq

/-- `udc_locations` row. -/
structure UDCLocation where
  udc : String
  position_code : String
  deriving Repr, DecidableEq

/-- The relational store visible to the engine, with autoincrement
counters.  Rows are stored in insertion order. -/
structure DB where
  missions : List Mission
  items : List MissionItem
  checks : List PositionCheck
  orders : List Order
  orderItems : List OrderItem
  inventory : List UDCInventory
  locations : List UDCLocation
  nextMissionId : Nat
  nextItemId : Nat
  nextCheckId : Nat
  deriving Repr, DecidableEq

def DB.findCheck (db : DB) (check_id : Nat) : Option PositionCheck :=
  db.checks.find? (fun c => c.id = check_id)

def DB.findItem (db : DB) (item_id : Nat) : Option MissionItem :=
  db.items.find? (fun i => i.id = item_id)

def DB.findMission (db : DB) (mission_id : Nat) : Option Mission :=
  db.missions.find? (fun m => m.id = mission_id)

def DB.findOrder (db : DB) (order_id : Nat) : Option Order :=
  db.orders.find? (fun o => o.id = order_id)

/-- In-place UPDATE of the check row(s) with the given id. -/
def DB.updateCheck (db : DB) (check_id : Nat) (f : PositionCheck → PositionCheck) : DB :=
  { db with checks := db.checks.map (fun c => if c.id = check_id then f c else c) }

/-- In-place UPDATE of the mission-item row(s) with the given id. -/
def DB.updateItem (db : DB) (item_id : Nat) (f : MissionItem → MissionItem) : DB :=
  { db with items := db.items.map (fun i => if i.id = item_id then f i else i) }

/-- In-place UPDATE of the mission row(s) with the given id. -/
def DB.updateMission (db : DB) (mission_id : Nat) (f : Mission → Mission) : DB :=
  { db with missions := db.missions.map (fun m => if m.id = mission_id then f m else m) }

/-! ## Position-code transform (`MissionCreator._convert_position_to_ascii`).
Strings are processed as their character lists (`String` in Lean is a
wrapper around `List Char`), so `split('-')`, slicing and `'-'.join` are
structural list functions. -/

/-- `position_code.split('-')` on the character list: `"".split('-')` is
`[""]`, separators at the ends produce empty segments. -/
def splitOnDash : List Char → List (List Char)
  | [] => [[]]
  | ch :: rest =>
    let r := splitOnDash rest
    if ch = '-' then [] :: r
    else
      match r with
      | [] => [[ch]]
      | seg :: segs => (ch :: seg) :: segs

/-- `'-'.join(parts)`. -/
def joinDash : List (List Char) → List Char
  | [] => []
  | [seg] => seg
  | seg :: rest => seg ++ '-' :: joinDash rest

/-- Python `int()` on a slice of the position code, as used by the
transform: the value of a non-empty all-digit string.  (Python `int()`
also tolerates a sign, whitespace and inner underscores, but any such
input either fails or yields a value outside the printable range 32–126 —
a sign or space costs a digit position, leaving at most one digit, value
≤ 9 — so the transform's behaviour is unchanged by parsing digits only.) -/
def digitsVal? (cs : List Char) : Option Nat :=
  if cs ≠ [] ∧ cs.all (fun c => c.isDigit) then
    some (cs.foldl (fun n c => n * 10 + (c.toNat - 48)) 0)
  else Option.none

/-- Transform of the first hyphen-separated segment: mirrors the
`len(mag) >= 5` / `elif len(mag) >= 2` branches; a failed `int()` or an
out-of-range code point leaves the segment unmodified. -/
def convertFirstSegment (mag : List Char) : List Char :=
  if mag.length ≥ 5 then
    let firstTwo := mag.take 2
    let middle := (mag.drop 2).take 1
    let nextTwo := (mag.drop 3).take 2
    let remaining := mag.drop 5
    match digitsVal? firstTwo, digitsVal? nextTwo with
    | some a, some b =>
      if 32 ≤ a ∧ a ≤ 126 ∧ 32 ≤ b ∧ b ≤ 126 then
        Char.ofNat a :: middle ++ Char.ofNat b :: remaining
      else mag
    | _, _ => mag
  else if mag.length ≥ 2 then
    let firstTwo := mag.take 2
    let remaining := mag.drop 2
    match digitsVal? firstTwo with
    | some a =>
      if 32 ≤ a ∧ a ≤ 126 then Char.ofNat a :: remaining
      else mag
    | Option.none => mag
  else mag

/-- `_convert_position_to_ascii`: split on `-`, transform the first
segment when it is non-empty, rejoin.  Empty input and the literal
`"UNKNOWN"` pass through unchanged. -/
def convertPositionToAscii (position_code : String) : String :=
  if position_code = "" ∨ position_code = "UNKNOWN" then position_code
  else
    match splitOnDash position_code.toList with
    | [] => position_code
    | p0 :: rest =>
      if p0 ≠ [] then String.mk (joinDash (convertFirstSegment p0 :: rest))
      else String.mk (joinDash (p0 :: rest))

/-- Python callers may pass `None` for the position code; `not position_code`
is then truthy and the argument is returned unchanged. -/
def convertPositionToAsciiOpt : Option String → Option String
  | Option.none => Option.none
  | some s => some (convertPositionToAscii s)

/-! ## Resolution engine (`check_handler.py`, class `CheckHandler`) -/

/-- Structured result of `mark_found` / `mark_not_found`.  On failure only
`success`/`message` are meaningful (the Python dict has no data keys then);
the numeric fields are zeroed in that case. -/
structure MarkResult where
  success : Bool
  message : String
  item_resolved : Bool
  mission_complete : Bool
  qty_found : Int
  total_found_for_item : Int
  qty_still_missing : Int
  positions_auto_skipped : Nat
  deriving Repr, DecidableEq

def MarkResult.failure (msg : String) : MarkResult :=
  ⟨false, msg, false, false, 0, 0, 0, 0⟩

/-- A check counts as pending when its status is `TO_CHECK` or the legacy
alias `PENDING` (accepted "for backwards compatibility" throughout the
handler). -/
def pendingStatus (s : String) : Prop := s = "TO_CHECK" ∨ s = "PENDING"

instance (s : String) : Decidable (pendingStatus s) := by
  unfold pendingStatus; infer_instance

/-- `CheckHandler._auto_skip_remaining_positions`: select every check of
the same mission and mission item still pending, excluding
`exclude_check_id` (the Python guard `if exclude_check_id:` makes the
exclusion a no-op when the id is 0), set them to `SKIPPED_AUTO`, and
return how many were selected. -/
def autoSkipRemainingPositions (db : DB) (mission_id mission_item_id exclude_check_id : Nat) :
    Nat × DB :=
  let pred : PositionCheck → Prop := fun c =>
    c.mission_id = mission_id ∧ c.mission_item_id = mission_item_id ∧
      pendingStatus c.status ∧ (exclude_check_id = 0 ∨ c.id ≠ exclude_check_id)
  let remaining := db.checks.filter (fun c => decide (pred c))
  let db2 := { db with checks := db.checks.map (fun c =>
    if decide (pred c) then
      { c with status := "SKIPPED_AUTO", notes := some "Auto-skipped: All missing items found" }
    else c) }
  (remaining.length, db2)

def countItemsOf (db : DB) (mission_id : Nat) : Nat :=
  (db.items.filter (fun i => i.mission_id = mission_id)).length

def countResolvedItemsOf (db : DB) (mission_id : Nat) : Nat :=
  (db.items.filter (fun i => i.mission_id = mission_id ∧ i.is_resolved = true)).length

def countPendingChecksOf (db : DB) (mission_id : Nat) : Nat :=
  (db.checks.filter (fun c => c.mission_id = mission_id ∧ pendingStatus c.status)).length

def completedStatus (s : String) : Prop :=
  s = "FOUND" ∨ s = "NOT_FOUND" ∨ s = "SKIPPED_AUTO"

instance (s : String) : Decidable (completedStatus s) := by
  unfold completedStatus; infer_instance

def countCompletedChecksOf (db : DB) (mission_id : Nat) : Nat :=
  (db.checks.filter (fun c => c.mission_id = mission_id ∧ completedStatus c.status)).length

/-- `CheckHandler._check_mission_completion`: recompute the mission status
from the current item/check rows and return the (new) status.  This is a
read-your-writes model of the session.  (In the real session, created
with `autoflush=False`, the SQL `COUNT` of resolved items inside a
`mark_found` call does not yet see that call's un-flushed `is_resolved`
write; but both the all-resolved branch and the no-pending branch assign
`COMPLETED` with `completed_at`, and when the stale count misses the
just-resolved final item its sibling checks were auto-skipped in the same
call, so the no-pending branch fires and the assigned status coincides
with this model on every state the handler can reach.) -/
def checkMissionCompletion (db : DB) (mission_id : Nat) : String × DB :=
  match db.findMission mission_id with
  | Option.none => ("UNKNOWN", db)
  | some mission =>
    let total_items := countItemsOf db mission_id
    let resolved_items := countResolvedItemsOf db mission_id
    let pending_checks := countPendingChecksOf db mission_id
    let completed_checks := countCompletedChecksOf db mission_id
    if resolved_items = total_items then
      ("COMPLETED", db.updateMission mission_id (fun m =>
        { m with status := "COMPLETED", completed_at_set := true }))
    else if pending_checks = 0 ∧ resolved_items < total_items then
      ("COMPLETED", db.updateMission mission_id (fun m =>
        { m with status := "COMPLETED", completed_at_set := true }))
    else if 0 < completed_checks ∧ mission.status = "OPEN" then
      ("IN_PROGRESS", db.updateMission mission_id (fun m =>
        { m with status := "IN_PROGRESS", started_at_set := true }))
    else
      (mission.status, db)

/-- `CheckHandler.mark_found`.  The session is transactional: the embedding
returns the committed store (the Python `db.flush()` before the auto-skip
query is what makes the `FOUND` write visible to it, which here is simply
sequencing `db1` before `autoSkipRemainingPositions`). -/
def markFound (db : DB) (check_id : Nat) (checked_by : String)
    (qty_found_arg : Option Int) (notes : Option String) : MarkResult × DB :=
  match db.findCheck check_id with
  | Option.none => (MarkResult.failure "Position check not found", db)
  | some check =>
    if pendingStatus check.status then
      match db.findItem check.mission_item_id with
      | Option.none => (MarkResult.failure "Mission item not found", db)
      | some mission_item =>
        let qty_found := qty_found_arg.getD 1
        let db1 := db.updateCheck check_id (fun c =>
          { c with status := "FOUND", found_in_position := some true,
                   qty_found := some qty_found, checked_by := some checked_by,
                   notes := notes })
        let new_qty : Int := mission_item.qty_found + qty_found
        let item_resolved : Bool := decide (mission_item.qty_missing ≤ new_qty)
        let db2 := db1.updateItem mission_item.id (fun i =>
          { i with qty_found := new_qty,
                   is_resolved := if item_resolved then true else i.is_resolved })
        let skipres :=
          if item_resolved then
            autoSkipRemainingPositions db2 check.mission_id check.mission_item_id check_id
          else (0, db2)
        let compres := checkMissionCompletion skipres.2 check.mission_id
        (⟨true, "Position marked as FOUND", item_resolved, compres.1 = "COMPLETED",
          qty_found, new_qty, max (mission_item.qty_missing - new_qty) 0,
          skipres.1⟩, compres.2)
    else
      (MarkResult.failure ("Position already checked (status: " ++ check.status ++ ")"), db)

/-- `CheckHandler.mark_not_found`. -/
def markNotFound (db : DB) (check_id : Nat) (checked_by : String)
    (notes : Option String) : MarkResult × DB :=
  match db.findCheck check_id with
  | Option.none => (MarkResult.failure "Position check not found", db)
  | some check =>
    if pendingStatus check.status then
      let db1 := db.updateCheck check_id (fun c =>
        { c with status := "NOT_FOUND", found_in_position := some false,
                 checked_by := some checked_by, notes := notes })
      let compres := checkMissionCompletion db1 check.mission_id
      (⟨true, "Position marked as NOT_FOUND", false, compres.1 = "COMPLETED",
        0, 0, 0, 0⟩, compres.2)
    else
      (MarkResult.failure ("Position already checked (status: " ++ check.status ++ ")"), db)

/-- One operator action against the handler. -/
inductive Op where
  | found (check_id : Nat) (checked_by : String) (qty_found : Option Int) (notes : Option String)
  | notFound (check_id : Nat) (checked_by : String) (notes : Option String)
  deriving Repr, DecidableEq

def applyOp (db : DB) : Op → DB
  | Op.found cid cb qf notes => (markFound db cid cb qf notes).2
  | Op.notFound cid cb notes => (markNotFound db cid cb notes).2

def applyOps (db : DB) (ops : List Op) : DB :=
  ops.foldl applyOp db

/-- The effective quantity an operation adds on success: `qty_found`
defaults to 1 when unspecified; `mark_not_found` adds nothing. -/
def Op.effQty : Op → Int
  | Op.found _ _ qf _ => qf.getD 1
  | Op.notFound _ _ _ => 0

/-! ## Missing-item resolver (`MissionCreator._find_missing_items_fixed`) -/

/-- One raw shipped-item record as returned by `call_get_spedito2`
(`nLista`, `nOrdine`, `CodiceArticolo`, `Quantita`).  A missing `Quantita`
defaults to 0 in the code, and a falsy value is coerced to `Decimal('0')`,
which on `Int` is the identity, so `qty` is a plain `Int`. -/
structure ShippedRec where
  nLista : Option Int
  nOrdine : Option String
  sku : Option String
  qty : Int
  deriving Repr, DecidableEq

/-- The composite key `(str(n_ordine), int(n_lista), str(sku))` of a
shipped record, defined only when all three fields are truthy
(`if n_ordine and n_lista and sku`): present and non-empty / non-zero. -/
def shippedKey (r : ShippedRec) : Option (String × Int × String) :=
  match r.nOrdine, r.nLista, r.sku with
  | some o, some n, some s =>
    if o ≠ "" ∧ n ≠ 0 ∧ s ≠ "" then some (o, n, s) else Option.none
  | _, _, _ => Option.none

/-- The `n_lista` values collected into `shipped_n_listas`
(`if n_lista: shipped_n_listas.add(int(n_lista))`); only membership and
emptiness of the set matter, so duplicates are harmless. -/
def shippedNListas (shipped : List ShippedRec) : List Int :=
  shipped.filterMap (fun r =>
    match r.nLista with
    | some n => if n ≠ 0 then some n else Option.none
    | Option.none => Option.none)

/-- Add `q` to the entry of `k` in an association list
(`m[k] = m.get(k, 0) + q`); used for `shipped_map` and for the inventory
aggregation's GROUP BY / SUM. -/
def assocAdd {α : Type} [DecidableEq α] : List (α × Int) → α → Int → List (α × Int)
  | [], k, q => [(k, q)]
  | (k0, q0) :: rest, k, q =>
    if k0 = k then (k0, q0 + q) :: rest else (k0, q0) :: assocAdd rest k q

/-- `m.get(k, Decimal('0'))`. -/
def assocGetD {α : Type} [DecidableEq α] (m : List (α × Int)) (k : α) : Int :=
  match m.find? (fun p => p.1 = k) with
  | some p => p.2
  | Option.none => 0

/-- The `shipped_map`: cumulative shipped quantity per composite key. -/
def buildShippedMap (shipped : List ShippedRec) : List ((String × Int × String) × Int) :=
  shipped.foldl (fun m r =>
    match shippedKey r with
    | some k => assocAdd m k r.qty
    | Option.none => m) []

/-- One emitted shortfall line (an element of the `missing` list). -/
structure MissingLine where
  n_ordine : String
  n_lista : Int
  listone : Option Int
  sku : String
  qty_ordered : Int
  qty_shipped : Int
  qty_missing : Int
  cesta : Option String
  deriving Repr, DecidableEq

/-- Body of the per-`order_item` comparison loop: join to `orders`
(`continue` when absent), look up the shipped quantity, emit iff
`qty_missing > 0`.  The batch preview later stamps `cesta` onto the line,
so it starts out `none` here. -/
def emitMissing (db : DB) (smap : List ((String × Int × String) × Int))
    (oi : OrderItem) : Option MissingLine :=
  match db.findOrder oi.order_id with
  | Option.none => Option.none
  | some o =>
    let qty_ordered := oi.qty_ordered
    let qty_shipped := assocGetD smap (o.order_number, oi.n_lista, oi.sku)
    let qty_missing := qty_ordered - qty_shipped
    if 0 < qty_missing then
      some ⟨o.order_number, oi.n_lista, oi.listone, oi.sku,
            qty_ordered, qty_shipped, qty_missing, Option.none⟩
    else Option.none

/-- `_find_missing_items_fixed`: candidate order items are filtered by
`n_lista` membership ONLY (never by cesta); empty `shipped_n_listas`
returns the empty list. -/
def findMissingItemsFixed (db : DB) (shipped : List ShippedRec) : List MissingLine :=
  let nls := shippedNListas shipped
  if nls = [] then []
  else
    let smap := buildShippedMap shipped
    (db.orderItems.filter (fun oi => oi.n_lista ∈ nls)).filterMap (emitMissing db smap)

/-! ## Batch grouping (`MissionCreator._group_items_by_sku_listone`) -/

/-- The grouping key `(sku, listone, n_ordine, n_lista)`. -/
def lineKey (l : MissingLine) : String × Option Int × String × Int :=
  (l.sku, l.listone, l.n_ordine, l.n_lista)

/-- One grouped item (a value of the `grouped` dict). -/
structure GroupedLine where
  sku : String
  listone : Option Int
  n_ordine : String
  n_lista : Int
  qty_ordered : Int
  qty_shipped : Int
  qty_missing : Int
  cestas : List String
  deriving Repr, DecidableEq

def GroupedLine.key (g : GroupedLine) : String × Option Int × String × Int :=
  (g.sku, g.listone, g.n_ordine, g.n_lista)

/-- Fresh zero group for a key. -/
def initGroup (k : String × Option Int × String × Int) : GroupedLine :=
  ⟨k.1, k.2.1, k.2.2.1, k.2.2.2, 0, 0, 0, []⟩

/-- Fold one item into its group: sum the three quantities and append the
item's cesta when truthy and not already present. -/
def combineInto (g : GroupedLine) (l : MissingLine) : GroupedLine :=
  let g1 := { g with qty_ordered := g.qty_ordered + l.qty_ordered,
                     qty_shipped := g.qty_shipped + l.qty_shipped,
                     qty_missing := g.qty_missing + l.qty_missing }
  match l.cesta with
  | some c =>
    if c ≠ "" ∧ c ∉ g1.cestas then { g1 with cestas := g1.cestas ++ [c] } else g1
  | Option.none => g1

/-- Update-or-append on the insertion-ordered association list that models
the Python dict `grouped`. -/
def groupStep : List GroupedLine → MissingLine → List GroupedLine
  | [], l => [combineInto (initGroup (lineKey l)) l]
  | g :: rest, l =>
    if g.key = lineKey l then combineInto g l :: rest else g :: groupStep rest l

/-- `_group_items_by_sku_listone`: `list(grouped.values())` in first-seen
key order. -/
def groupItemsBySkuListone (items : List MissingLine) : List GroupedLine :=
  items.foldl groupStep []

/-! ## Position-check generation
(`MissionCreator._generate_position_checks` and
`_generate_position_checks_batch`).  The two loop bodies are identical in
the fields they read (`item['sku']`, `item['listone']`) and in the
`PositionCheck` rows they build; the batch variant additionally sorts the
collected checks by `position_code` before inserting them.  The shared
loop is factored into `planChecks` below. -/

/-- The data of one check to create, before row insertion. -/
structure CheckPlan where
  mission_item_id : Nat
  udc : String
  listone : Int
  position_code : String
  deriving Repr, DecidableEq

/-- Set `k ↦ v` in an association list, overwriting an existing binding
(Python dict assignment). -/
def assocSet : List ((String × Int) × Nat) → (String × Int) → Nat → List ((String × Int) × Nat)
  | [], k, v => [(k, v)]
  | (k0, v0) :: rest, k, v =>
    if k0 = k then (k0, v) :: rest else (k0, v0) :: assocSet rest k v

def assocGet (m : List ((String × Int) × Nat)) (k : String × Int) : Option Nat :=
  (m.find? (fun p => p.1 = k)).map (fun p => p.2)

/-- `mission_items_map`: `(sku, listone) -> mission_item.id` over the
mission's items, skipping falsy `listone` (absent or 0); a duplicate key
keeps the last item's id (dict overwrite). -/
def missionItemsMap (db : DB) (mission_id : Nat) : List ((String × Int) × Nat) :=
  (db.items.filter (fun i => i.mission_id = mission_id)).foldl (fun m mi =>
    match mi.listone with
    | some li => if li ≠ 0 then assocSet m (mi.sku, li) mi.id else m
    | Option.none => m) []

/-- Checks planned for one shortfall/grouped line: skip falsy `listone`,
query the inventory for unit loads holding the (listone, sku) with
positive quantity (`continue` when empty), resolve the mission item id
(`if not mission_item_id: continue` also skips a falsy id 0), and emit one
check per unit load with the transformed location code (`'UNKNOWN'` when
the unit load has no location row). -/
def perLinePlan (db : DB) (m : List ((String × Int) × Nat))
    (sku : String) (listone : Option Int) : List CheckPlan :=
  match listone with
  | Option.none => []
  | some li =>
    if li = 0 then []
    else
      let udcs := db.inventory.filter (fun u => u.listone = li ∧ u.sku = sku ∧ 0 < u.qty)
      if udcs = [] then []
      else
        match assocGet m (sku, li) with
        | Option.none => []
        | some miid =>
          if miid = 0 then []
          else
            udcs.map (fun u =>
              let raw :=
                match db.locations.find? (fun loc => loc.udc = u.udc) with
                | some loc => loc.position_code
                | Option.none => "UNKNOWN"
              ⟨miid, u.udc, li, convertPositionToAscii raw⟩)

/-- The collected `checks_to_create` of either generation path, in loop
order (one block of checks per input line). -/
def planChecks (db : DB) (mission_id : Nat) (lines : List (String × Option Int)) :
    List CheckPlan :=
  let m := missionItemsMap db mission_id
  (lines.map (fun sl => perLinePlan db m sl.1 sl.2)).flatten

/-- Insert planned checks as `TO_CHECK` rows in the given order. -/
def insertChecks (db : DB) (mission_id : Nat) (plan : List CheckPlan) : DB :=
  plan.foldl (fun d p =>
    { d with
      checks := d.checks ++
        [⟨d.nextCheckId, mission_id, p.mission_item_id, some p.udc, some p.listone,
          p.position_code, "TO_CHECK", Option.none, Option.none, Option.none, Option.none⟩],
      nextCheckId := d.nextCheckId + 1 }) db

/-- `_generate_position_checks` (single-cesta path): insert in loop
order, return the number created. -/
def generatePositionChecks (db : DB) (mission_id : Nat) (lines : List MissingLine) :
    Nat × DB :=
  let plan := planChecks db mission_id (lines.map (fun l => (l.sku, l.listone)))
  (plan.length, insertChecks db mission_id plan)

/-- `_generate_position_checks_batch`: same plan, sorted by
`position_code` ascending before insertion. -/
def generatePositionChecksBatch (db : DB) (mission_id : Nat) (lines : List GroupedLine) :
    Nat × DB :=
  let plan := planChecks db mission_id (lines.map (fun l => (l.sku, l.listone)))
  let sorted := plan.insertionSort (fun a b => a.position_code ≤ b.position_code)
  (sorted.length, insertChecks db mission_id sorted)

/-! ## Single-cesta mission creation (`MissionCreator.create_mission_from_cesta`).
The external API call is out of scope: the embedding receives the
shipped-item list the provider returned; `today` stands for
`datetime.now().strftime('%Y%m%d')`. -/

/-- `%03d`. -/
def pad3 (n : Nat) : String :=
  let s := toString n
  if s.length < 3 then String.mk (List.replicate (3 - s.length) '0') ++ s else s

/-- Python string `<` (lexicographic on code points), used to model
`ORDER BY mission_code DESC`. -/
def charListLt : List Char → List Char → Bool
  | [], [] => false
  | [], _ :: _ => true
  | _ :: _, [] => false
  | a :: as, b :: bs =>
    if a.toNat < b.toNat then true
    else if a.toNat = b.toNat then charListLt as bs else false

/-- `_generate_mission_code`: take the lexicographically greatest existing
`PSM-<today>-...` code (`LIKE prefix% ORDER BY mission_code DESC`), parse
its last `-`-separated segment as the sequence number (falling back to 1
on failure: `except: next_num = 1`), and emit prefix plus the incremented
number padded to three digits.  The self-generated suffixes are all-digit,
so `digitsVal?` is `int()` here. -/
def generateMissionCode (missions : List Mission) (today : String) : String :=
  let pre := "PSM-" ++ today ++ "-"
  let matching := missions.filter (fun m => pre.toList.isPrefixOf m.mission_code.toList)
  let existing : Option Mission := matching.foldl (fun acc m =>
    match acc with
    | Option.none => some m
    | some a => if charListLt a.mission_code.toList m.mission_code.toList then some m else acc)
    Option.none
  match existing with
  | Option.none => pre ++ pad3 1
  | some m =>
    match (splitOnDash m.mission_code.toList).getLast? with
    | some s =>
      match digitsVal? s with
      | some n => pre ++ pad3 (n + 1)
      | Option.none => pre ++ pad3 1
    | Option.none => pre ++ pad3 1

/-- `min(shipped_n_listas)` (`sorted(...)[0]`) for the creation path,
which collects `int(x.get("nLista")) ... if x.get("nLista") is not None`
— an `is not None` test, unlike the resolver's truthiness test, so a
zero pick-list id is kept here; `none` when every record lacks `nLista`. -/
def refNLista (shipped : List ShippedRec) : Option Int :=
  match shipped.filterMap (fun r => r.nLista) with
  | [] => Option.none
  | h :: t => some (t.foldl min h)

/-- The duplicate-mission guard: an OPEN or IN_PROGRESS mission for the
same `(cesta, reference_n_lista)`.  Rows are stored in insertion order, so
`ORDER BY created_at DESC ... first()` is the last matching row. -/
def findExistingMission (db : DB) (cesta : String) (ref : Int) : Option Mission :=
  (db.missions.filter (fun m =>
    m.cesta = cesta ∧ m.reference_n_lista = some ref ∧
      (m.status = "OPEN" ∨ m.status = "IN_PROGRESS"))).getLast?

/-- Insert one `MissionItem` per shortfall line (`qty_found = 0`,
`is_resolved = False`). -/
def insertMissionItems (db : DB) (mission_id : Nat) (lines : List MissingLine) : DB :=
  lines.foldl (fun d l =>
    { d with
      items := d.items ++
        [⟨d.nextItemId, mission_id, l.n_ordine, l.n_lista, l.sku, l.listone,
          l.qty_ordered, l.qty_shipped, l.qty_missing, 0, false⟩],
      nextItemId := d.nextItemId + 1 }) db

inductive CreateResult where
  | failure (message : String)
  | alreadyExists (mission_id : Nat) (mission_code : String) (status : String)
  | nothingMissing
  | created (mission_id : Nat) (mission_code : String) (total_missing : Nat)
      (position_checks : Nat)
  deriving Repr, DecidableEq

/-- `create_mission_from_cesta` after a successful API call: fail fast on
empty data or no usable `nLista`; duplicate guard; resolver; persist
mission + items; generate position checks. -/
def createMissionFromCesta (db : DB) (cesta : String) (created_by : String)
    (shipped : List ShippedRec) (today : String) : CreateResult × DB :=
  if shipped = [] then (CreateResult.failure "No shipped items found for this cesta", db)
  else
    match refNLista shipped with
    | Option.none =>
      (CreateResult.failure "No nLista found in shipped items (cannot create mission)", db)
    | some ref =>
      match findExistingMission db cesta ref with
      | some m => (CreateResult.alreadyExists m.id m.mission_code m.status, db)
      | Option.none =>
        let missing := findMissingItemsFixed db shipped
        if missing = [] then (CreateResult.nothingMissing, db)
        else
          let code := generateMissionCode db.missions today
          let mid := db.nextMissionId
          let db1 := { db with
            missions := db.missions ++
              [⟨mid, code, cesta, some ref, "OPEN", created_by, false, false⟩],
            nextMissionId := mid + 1 }
          let db2 := insertMissionItems db1 mid missing
          let gen := generatePositionChecks db2 mid missing
          (CreateResult.created mid code missing.length gen.1, gen.2)

/-! ## Inventory rebuild (`rebuild_udc_inventory.py`).
The module's body is written against a multi-company schema ("MULTI-COMPANY
UPDATE ... Writes company into udc_inventory (NOT NULL)"), but the
checked-in `models.py` declares no `company` column on `UDCInventory`,
`PickingEvent` or `OrderItem`, and nothing else adds one (the
`before_flush` hook in `connection.py` only tests `hasattr`).  The first
body statement, the clear query of line 34, therefore fails while it is
being *built*: evaluating `UDCInventory.company` is a class-attribute
lookup that raises `AttributeError` before `.delete()` — let alone the
`db.commit()` of line 35 — can run.  `get_db_context` rolls the
still-empty transaction back and re-raises (connection.py lines 84-102),
and the function's own `except` returns `{"success": False, "error":
str(e)}` (lines 88-92).  So, against the checked-in schema, every call
returns a failure dict and neither reads nor writes any table. -/

/-- Column attributes declared on the checked-in `UDCInventory` model
(models.py lines 176-184).  No `company` column; no relationship is
declared on this model either. -/
def udcInventoryColumns : List String :=
  ["id", "udc", "sku", "listone", "qty", "last_updated"]

/-- Column attributes declared on the checked-in `PickingEvent` model
(models.py lines 160-170; its one relationship is named `order_item`).
No `company` column. -/
def pickingEventColumns : List String :=
  ["id", "order_item_id", "udc", "carrello", "qty_picked", "operator",
    "picked_at", "created_at"]

/-- Column attributes declared on the checked-in `OrderItem` model
(models.py lines 141-153; its relationships are named `order` and
`picking_events`).  No `company` column. -/
def orderItemColumns : List String :=
  ["id", "order_id", "n_lista", "listone", "sku", "qty_ordered",
    "descrizione", "cesta", "created_at", "updated_at"]

/-- The dict `rebuild_udc_inventory` returns: `{"success": True,
"records_created": n, ...}` on success, `{"success": False, "error": msg}`
on a caught exception. -/
inductive RebuildResult where
  | ok (records_created : Nat)
  | failed (error : String)
  deriving Repr, DecidableEq

def RebuildResult.success : RebuildResult → Bool
  | RebuildResult.ok _ => true
  | RebuildResult.failed _ => false

/-- `rebuild_udc_inventory` (rebuild_udc_inventory.py lines 20-92) run
against the checked-in `models.py`.  After computing `company_key`
(line 27, which cannot fail: `company or settings.DEFAULT_COMPANY` is a
string) and opening the session (line 31), execution reaches line 34 and
raises `AttributeError` evaluating `UDCInventory.company` — the message is
Python's `type object ... has no attribute ...`, with the two names
quoted — because the model declares no such attribute (see
`udcInventoryColumns`; `PickingEvent.company` and `OrderItem.company` at
lines 49-50 are equally absent but are never reached).  The exception is
raised before the DELETE executes, so no call, whatever its argument or
the prior store contents, reads or writes a table: the result is the
failure dict and the committed store is exactly the one passed in. -/
def rebuildUdcInventory (_company : Option String) (db : DB) : RebuildResult × DB :=
  (RebuildResult.failed "type object UDCInventory has no attribute company", db)

/-! ## Helper lemmas -/

/-- `find?` by id after an id-preserving in-place update. -/
theorem find_update_by_id {α : Type} (idf : α → Nat) (l : List α) (k : Nat) (f : α → α)
    (hf : ∀ x, idf (f x) = idf x) :
    (l.map (fun x => if idf x = k then f x else x)).find? (fun x => decide (idf x = k)) =
      (l.find? (fun x => decide (idf x = k))).map f := by
  induction l with
  | nil => rfl
  | cons a t ih =>
    by_cases h : idf a = k
    · simp [List.find?, h, hf]
    · simp [List.find?, h, hf, ih]

theorem findMission_updateMission (db : DB) (mid : Nat) (f : Mission → Mission)
    (hf : ∀ m, (f m).id = m.id) :
    (db.updateMission mid f).findMission mid = (db.findMission mid).map f := by
  unfold DB.findMission DB.updateMission
  exact find_update_by_id (fun m => m.id) db.missions mid f hf

/-! ## C10: the position-code transform examples -/

/-- C10, counterexample.  The claim asserts that `"65066-10-5-1"` maps to
`"A0B66-10-5-1"`; in the code the characters `66` are consumed by the
second numeric mapping (`66 → 'B'`) and nothing of the five-character
segment remains, so the result is `"A0B-10-5-1"`. -/
theorem C10_counterexample :
    convertPositionToAscii "65066-10-5-1" = "A0B-10-5-1" ∧
      convertPositionToAscii "65066-10-5-1" ≠ "A0B66-10-5-1" := by decide

/-- C10, amended: the transform maps `"86265-21-1-3"` to `"V2A-21-1-3"`,
leaves `"UNKNOWN"`, `None` and the empty string unchanged, and maps
`"65066-10-5-1"` to `"A0B-10-5-1"` (65 → 'A', '0' kept, 66 → 'B', and the
remainder of the segment after its first five characters — here empty —
appended unchanged). -/
theorem C10_amended :
    convertPositionToAscii "86265-21-1-3" = "V2A-21-1-3" ∧
      convertPositionToAscii "UNKNOWN" = "UNKNOWN" ∧
      convertPositionToAscii "" = "" ∧
      convertPositionToAsciiOpt Option.none = Option.none ∧
      convertPositionToAscii "65066-10-5-1" = "A0B-10-5-1" := by decide

/-! ## C1: mission status when the search is exhausted but items remain -/

def dbC1 : DB where
  missions := [⟨1, "PSM-20250101-001", "X0399", some 5, "OPEN", "sys", false, false⟩]
  items := [⟨1, 1, "O1", 5, "SKU1", some 7, 2, 0, 2, 0, false⟩]
  checks := [⟨1, 1, 1, some "U1", some 7, "A1", "TO_CHECK",
    Option.none, Option.none, Option.none, Option.none⟩]
  orders := []
  orderItems := []
  inventory := []
  locations := []
  nextMissionId := 2
  nextItemId := 2
  nextCheckId := 2

/-- C1, counterexample.  Marking the only check of a one-item mission
NOT_FOUND leaves zero pending checks and one unresolved item, and the
recompute then sets the mission status to `COMPLETED`, not `IN_PROGRESS`
as the claim states. -/
theorem C1_counterexample :
    countPendingChecksOf (markNotFound dbC1 1 "op" Option.none).2 1 = 0 ∧
      countResolvedItemsOf (markNotFound dbC1 1 "op" Option.none).2 1 = 0 ∧
      countItemsOf (markNotFound dbC1 1 "op" Option.none).2 1 = 1 ∧
      ((markNotFound dbC1 1 "op" Option.none).2.findMission 1).map (fun m => m.status) =
        some "COMPLETED" := by decide

/-- C1, amended.  When the recompute runs with zero pending checks but at
least one unresolved item, it sets the mission status to `COMPLETED`
(stamping `completed_at`), not `IN_PROGRESS`: the "searched everywhere,
still missing" state is folded into `COMPLETED`. -/
theorem C1_amended (db : DB) (mission_id : Nat) (m : Mission)
    (hm : db.findMission mission_id = some m)
    (hp : countPendingChecksOf db mission_id = 0)
    (hr : countResolvedItemsOf db mission_id < countItemsOf db mission_id) :
    (checkMissionCompletion db mission_id).1 = "COMPLETED" ∧
      ((checkMissionCompletion db mission_id).2.findMission mission_id).map
        (fun x => (x.status, x.completed_at_set)) = some ("COMPLETED", true) := by
  have hne : ¬ countResolvedItemsOf db mission_id = countItemsOf db mission_id :=
    Nat.ne_of_lt hr
  simp only [checkMissionCompletion, hm]
  rw [if_neg hne, if_pos (And.intro hp hr)]
  refine ⟨rfl, ?_⟩
  rw [findMission_updateMission, hm]
  · rfl
  · intro x; rfl

/-- C1, witness for the amended theorem at a concrete store: one
unresolved item, no pending checks. -/
theorem C1_amended_witness :
    (checkMissionCompletion (markNotFound dbC1 1 "op" Option.none).2 1).1 = "COMPLETED" ∧
      ((checkMissionCompletion (markNotFound dbC1 1 "op" Option.none).2 1).2.findMission 1).map
        (fun x => (x.status, x.completed_at_set)) = some ("COMPLETED", true) :=
  C1_amended (markNotFound dbC1 1 "op" Option.none).2 1
    ⟨1, "PSM-20250101-001", "X0399", some 5, "COMPLETED", "sys", false, true⟩
    (by decide) (by decide) (by decide)

/-! ## C7: rejected marks on missing or non-actionable checks -/

def dbC7 : DB where
  missions := [⟨1, "PSM-20250101-002", "X0400", some 5, "OPEN", "sys", false, false⟩]
  items := [⟨1, 1, "O1", 5, "SKU1", some 7, 3, 0, 3, 0, false⟩]
  checks := [⟨1, 1, 1, some "U1", some 7, "A1", "PENDING",
    Option.none, Option.none, Option.none, Option.none⟩]
  orders := []
  orderItems := []
  inventory := []
  locations := []
  nextMissionId := 2
  nextItemId := 2
  nextCheckId := 2

/-- C7, counterexample.  A check whose status is the legacy alias
`"PENDING"` has status ≠ `TO_CHECK`, yet `mark_found` accepts it
("for backwards compatibility"), reports success and mutates it to
`FOUND` — contradicting "returns a failure result ... and no mutation
occurs" for every check whose status is not `TO_CHECK`. -/
theorem C7_counterexample :
    ((dbC7.findCheck 1).map (fun c => c.status) = some "PENDING") ∧
      (markFound dbC7 1 "op" Option.none Option.none).1.success = true ∧
      ((markFound dbC7 1 "op" Option.none Option.none).2.findCheck 1).map
        (fun c => c.status) = some "FOUND" := by decide

/-- C7, amended.  When the referenced check does not exist, or its status
is neither `TO_CHECK` nor the legacy alias `PENDING` (in particular when
it is terminal), both `mark_found` and `mark_not_found` return a failure
whose message reports the current state, and the store is left exactly as
before the call. -/
theorem C7_amended (db : DB) (cid : Nat) (cb : String) (qf : Option Int)
    (notes : Option String)
    (h : (db.findCheck cid).all (fun c => decide (¬ pendingStatus c.status)) = true) :
    markFound db cid cb qf notes =
      (MarkResult.failure (match db.findCheck cid with
        | Option.none => "Position check not found"
        | some c => "Position already checked (status: " ++ c.status ++ ")"), db) ∧
      markNotFound db cid cb notes =
        (MarkResult.failure (match db.findCheck cid with
          | Option.none => "Position check not found"
          | some c => "Position already checked (status: " ++ c.status ++ ")"), db) := by
  cases hfc : db.findCheck cid with
  | none => simp [markFound, markNotFound, hfc]
  | some c =>
    rw [hfc] at h
    have hnp : ¬ pendingStatus c.status := of_decide_eq_true h
    simp [markFound, markNotFound, hfc, if_neg hnp]

def dbC7w : DB where
  missions := [⟨1, "PSM-20250101-003", "X0401", some 5, "OPEN", "sys", false, false⟩]
  items := [⟨1, 1, "O1", 5, "SKU1", some 7, 3, 0, 3, 3, true⟩]
  checks := [⟨1, 1, 1, some "U1", some 7, "A1", "FOUND",
    some true, some 3, some "op", Option.none⟩]
  orders := []
  orderItems := []
  inventory := []
  locations := []
  nextMissionId := 2
  nextItemId := 2
  nextCheckId := 2

/-- C7, witness for the amended theorem: both marks on an already-`FOUND`
check fail with the status in the message and leave the store unchanged. -/
theorem C7_amended_witness :
    markFound dbC7w 1 "op2" Option.none Option.none =
      (MarkResult.failure (match dbC7w.findCheck 1 with
        | Option.none => "Position check not found"
        | some c => "Position already checked (status: " ++ c.status ++ ")"), dbC7w) ∧
      markNotFound dbC7w 1 "op2" Option.none =
        (MarkResult.failure (match dbC7w.findCheck 1 with
          | Option.none => "Position check not found"
          | some c => "Position already checked (status: " ++ c.status ++ ")"), dbC7w) :=
  C7_amended dbC7w 1 "op2" Option.none Option.none (by decide)

/-! ## C6: monotonicity of `qty_found` and `is_resolved` -/

def dbC6 : DB where
  missions := [⟨1, "PSM-20250101-004", "X0402", some 5, "OPEN", "sys", false, false⟩]
  items := [⟨1, 1, "O1", 5, "SKU1", some 7, 10, 0, 10, 5, false⟩]
  checks := [⟨1, 1, 1, some "U1", some 7, "A1", "TO_CHECK",
    Option.none, Option.none, Option.none, Option.none⟩]
  orders := []
  orderItems := []
  inventory := []
  locations := []
  nextMissionId := 2
  nextItemId := 2
  nextCheckId := 2

/-- C6, counterexample.  Neither the handler nor the route layer validates
`qty_found`, so a negative quantity is an argument the interface accepts;
`mark_found` on a `TO_CHECK` check with `qty_found = -3` succeeds and
drops the item's cumulative `qty_found` from 5 to 2. -/
theorem C6_counterexample :
    ((dbC6.findItem 1).map (fun i => i.qty_found) = some 5) ∧
      (markFound dbC6 1 "op" (some (-3)) Option.none).1.success = true ∧
      (((markFound dbC6 1 "op" (some (-3)) Option.none).2.findItem 1).map
        (fun i => i.qty_found) = some 2) := by decide

/-- Row-wise monotonicity: same id, `qty_found` did not decrease,
`is_resolved` was not cleared. -/
def itemMono (i j : MissionItem) : Prop :=
  j.id = i.id ∧ i.qty_found ≤ j.qty_found ∧ (i.is_resolved = true → j.is_resolved = true)

theorem itemMono_refl (l : List MissionItem) : List.Forall₂ itemMono l l := by
  induction l with
  | nil => exact List.Forall₂.nil
  | cons a t ih => exact List.Forall₂.cons ⟨rfl, le_refl _, fun h => h⟩ ih

theorem itemMono_trans {a b c : List MissionItem}
    (h1 : List.Forall₂ itemMono a b) (h2 : List.Forall₂ itemMono b c) :
    List.Forall₂ itemMono a c := by
  induction h1 generalizing c with
  | nil => cases h2; exact List.Forall₂.nil
  | @cons x y xs ys hxy hxs ih =>
    cases h2 with
    | cons hyz hys =>
      exact List.Forall₂.cons
        ⟨by rw [hyz.1, hxy.1], le_trans hxy.2.1 hyz.2.1, fun h => hyz.2.2 (hxy.2.2 h)⟩
        (ih hys)

theorem forall₂_map_self {α : Type} (R : α → α → Prop) (l : List α) (f : α → α)
    (h : ∀ x ∈ l, R x (f x)) : List.Forall₂ R l (l.map f) := by
  induction l with
  | nil => exact List.Forall₂.nil
  | cons a t ih =>
    exact List.Forall₂.cons (h a (List.mem_cons_self a t))
      (ih (fun x hx => h x (List.mem_cons_of_mem a hx)))

theorem itemMono_ids {l l2 : List MissionItem} (h : List.Forall₂ itemMono l l2) :
    l2.map (fun i => i.id) = l.map (fun i => i.id) := by
  induction h with
  | nil => rfl
  | cons hxy _ ih => simp [ih, hxy.1]

theorem checkMissionCompletion_items (db : DB) (mid : Nat) :
    (checkMissionCompletion db mid).2.items = db.items := by
  unfold checkMissionCompletion
  rcases db.findMission mid with _ | m
  · rfl
  · dsimp only
    split
    · rfl
    · split
      · rfl
      · split
        · rfl
        · rfl

theorem markNotFound_items (db : DB) (cid : Nat) (cb : String) (notes : Option String) :
    (markNotFound db cid cb notes).2.items = db.items := by
  unfold markNotFound
  rcases db.findCheck cid with _ | c
  · rfl
  · dsimp only
    split
    · exact checkMissionCompletion_items _ _
    · rfl

/-- Pointwise monotonicity of the mission-item UPDATE performed by
`mark_found`: the targeted row gains `it.qty_found + q` (with `x = it` by
primary-key uniqueness) and may flip `is_resolved` to true, every other
row is untouched. -/
theorem itemMono_update_pointwise (l : List MissionItem)
    (hids : (l.map (fun i => i.id)).Nodup)
    (it : MissionItem) (hit : it ∈ l) (q : Int) (hq : 0 ≤ q) (b : Bool) :
    List.Forall₂ itemMono l (l.map (fun i =>
      if i.id = it.id then
        { i with qty_found := it.qty_found + q,
                 is_resolved := if b then true else i.is_resolved }
      else i)) := by
  refine forall₂_map_self _ _ _ (fun x hx => ?_)
  by_cases hid : x.id = it.id
  · have hx_eq : x = it := List.inj_on_of_nodup_map hids hx hit hid
    subst hx_eq
    simp only [if_pos rfl]
    refine ⟨rfl, le_add_of_nonneg_right hq, fun h => ?_⟩
    cases b
    · simpa using h
    · simp
  · simp only [if_neg hid]
    exact ⟨rfl, le_refl _, fun h => h⟩

theorem markFound_items_mono (db : DB) (cid : Nat) (cb : String) (qf : Option Int)
    (notes : Option String)
    (hids : (db.items.map (fun i => i.id)).Nodup)
    (hq : 0 ≤ qf.getD 1) :
    List.Forall₂ itemMono db.items (markFound db cid cb qf notes).2.items := by
  unfold markFound
  cases hfc : db.findCheck cid with
  | none => exact itemMono_refl _
  | some c =>
    dsimp only
    split
    · cases hfi : db.findItem c.mission_item_id with
      | none => exact itemMono_refl _
      | some it =>
        have hitem : it ∈ db.items := List.mem_of_find?_eq_some hfi
        dsimp only
        rw [checkMissionCompletion_items]
        split
        · exact itemMono_update_pointwise db.items hids it hitem (qf.getD 1) hq true
        · exact itemMono_update_pointwise db.items hids it hitem (qf.getD 1) hq false
    · exact itemMono_refl _

theorem applyOp_items_mono (db : DB) (op : Op)
    (hids : (db.items.map (fun i => i.id)).Nodup)
    (hq : 0 ≤ op.effQty) :
    List.Forall₂ itemMono db.items (applyOp db op).items := by
  cases op with
  | found cid cb qf notes => exact markFound_items_mono db cid cb qf notes hids hq
  | notFound cid cb notes =>
    rw [show (applyOp db (Op.notFound cid cb notes)).items = db.items from
      markNotFound_items db cid cb notes]
    exact itemMono_refl _

/-- C6, amended.  Across any sequence of `mark_found` / `mark_not_found`
calls whose effective `qty_found` (the argument, defaulted to 1) is
nonnegative, every mission item keeps its id, its `qty_found` never
decreases and `is_resolved`, once true, never becomes false.  (Item ids
are assumed unique, as the primary key guarantees.)  The nonnegativity
restriction is what the counterexample forces: a negative `qty_found`
is accepted and decreases the cumulative quantity. -/
theorem C6_amended (db : DB) (ops : List Op)
    (hids : (db.items.map (fun i => i.id)).Nodup)
    (h : ∀ op ∈ ops, 0 ≤ op.effQty) :
    List.Forall₂ itemMono db.items (applyOps db ops).items := by
  induction ops generalizing db with
  | nil => exact itemMono_refl _
  | cons op rest ih =>
    have h1 : List.Forall₂ itemMono db.items (applyOp db op).items :=
      applyOp_items_mono db op hids (h op (List.mem_cons_self op rest))
    have hids2 : ((applyOp db op).items.map (fun i => i.id)).Nodup := by
      rw [itemMono_ids h1]; exact hids
    exact itemMono_trans h1 (ih (applyOp db op) hids2
      (fun o ho => h o (List.mem_cons_of_mem op ho)))

/-- C6, witness for the amended theorem: a concrete three-call sequence
(found with an explicit quantity, found with the default, not-found). -/
theorem C6_amended_witness :
    List.Forall₂ itemMono dbC6.items
      (applyOps dbC6 [Op.found 1 "op" (some 4) Option.none,
        Op.found 2 "op" Option.none Option.none,
        Op.notFound 1 "op" Option.none]).items :=
  C6_amended dbC6 _ (by decide) (by decide)

/-! ## C3: auto-skip of the remaining checks of a resolved item -/

theorem length_filter_map {α : Type} (l : List α) (f : α → α) (p : α → Bool) :
    ((l.map f).filter p).length = l.countP (fun x => p (f x)) := by
  induction l with
  | nil => rfl
  | cons a t ih =>
    simp only [List.map_cons, List.filter_cons, List.countP_cons]
    cases hp : p (f a) <;> simp [hp, ih]

theorem length_filter_eq_countP {α : Type} (l : List α) (p : α → Bool) :
    (l.filter p).length = l.countP p := by
  induction l with
  | nil => rfl
  | cons a t ih =>
    simp only [List.filter_cons, List.countP_cons]
    cases hp : p a <;> simp [hp, ih]

theorem countP_congr_mem {α : Type} (l : List α) (p q : α → Bool)
    (h : ∀ x ∈ l, p x = q x) : l.countP p = l.countP q := by
  induction l with
  | nil => rfl
  | cons a t ih =>
    simp only [List.countP_cons, h a (List.mem_cons_self a t)]
    rw [ih (fun x hx => h x (List.mem_cons_of_mem a hx))]

theorem countP_split {α : Type} (l : List α) (p q : α → Bool) :
    l.countP p = l.countP (fun x => p x && q x) + l.countP (fun x => p x && !q x) := by
  induction l with
  | nil => rfl
  | cons a t ih =>
    simp only [List.countP_cons]
    cases hp : p a <;> cases hq : q a <;> simp [hp, hq, ih] <;> omega

theorem countP_eq_one_unique {α : Type} (l : List α) (c : α) (hn : l.Nodup) (hc : c ∈ l)
    (p : α → Bool) (hp : ∀ x ∈ l, p x = true ↔ x = c) : l.countP p = 1 := by
  induction l with
  | nil => cases hc
  | cons a t ih =>
    have hna : a ∉ t := (List.nodup_cons.mp hn).1
    have hnt : t.Nodup := (List.nodup_cons.mp hn).2
    simp only [List.countP_cons]
    rcases List.mem_cons.mp hc with rfl | hct
    · have hpa : p c = true := (hp c (List.mem_cons_self c t)).mpr rfl
      have hzero : t.countP p = 0 := by
        rw [List.countP_eq_zero]
        intro x hx
        intro hpx
        exact hna ((hp x (List.mem_cons_of_mem c hx)).mp hpx ▸ hx)
      simp [hpa, hzero]
    · have hpa : p a = false := by
        cases hpv : p a
        · rfl
        · exact absurd ((hp a (List.mem_cons_self a t)).mp hpv ▸ hct) hna
      have := ih hnt hct (fun x hx => hp x (List.mem_cons_of_mem a hx))
      simp [hpa, this]

theorem checkMissionCompletion_checks (db : DB) (mid : Nat) :
    (checkMissionCompletion db mid).2.checks = db.checks := by
  unfold checkMissionCompletion
  rcases db.findMission mid with _ | m
  · rfl
  · dsimp only
    split
    · rfl
    · split
      · rfl
      · split
        · rfl
        · rfl

theorem autoSkip_fst (db : DB) (mid miid excl : Nat) :
    (autoSkipRemainingPositions db mid miid excl).1 =
      (db.checks.filter (fun c => decide (c.mission_id = mid ∧ c.mission_item_id = miid ∧
        pendingStatus c.status ∧ (excl = 0 ∨ c.id ≠ excl)))).length := rfl

theorem autoSkip_checks (db : DB) (mid miid excl : Nat) :
    (autoSkipRemainingPositions db mid miid excl).2.checks =
      db.checks.map (fun c =>
        if decide (c.mission_id = mid ∧ c.mission_item_id = miid ∧
            pendingStatus c.status ∧ (excl = 0 ∨ c.id ≠ excl)) = true then
          { c with status := "SKIPPED_AUTO",
                   notes := some "Auto-skipped: All missing items found" }
        else c) := rfl

/-- The auto-skip query, run after the FOUND write, selects exactly the
other checks of the mission item: the count it reports is the item's total
check count minus one. -/
theorem autoskip_count (l : List PositionCheck) (mid miid cid : Nat) (c : PositionCheck)
    (hcl : c ∈ l) (hcid : c.id = cid) (hcm : c.mission_id = mid)
    (hcmi : c.mission_item_id = miid)
    (hothers : ∀ x ∈ l, x.mission_id = mid → x.mission_item_id = miid → x.id ≠ cid →
      x.status = "TO_CHECK")
    (hids : (l.map (fun x => x.id)).Nodup)
    (f : PositionCheck → PositionCheck)
    (hf_m : ∀ x, (f x).mission_id = x.mission_id)
    (hf_mi : ∀ x, (f x).mission_item_id = x.mission_item_id)
    (hf_st : ∀ x, (f x).status = "FOUND") :
    ((l.map (fun x => if x.id = cid then f x else x)).filter (fun x =>
      decide (x.mission_id = mid ∧ x.mission_item_id = miid ∧ pendingStatus x.status ∧
        (cid = 0 ∨ x.id ≠ cid)))).length =
    (l.filter (fun x =>
      decide (x.mission_id = mid ∧ x.mission_item_id = miid))).length - 1 := by
  rw [length_filter_map, length_filter_eq_countP]
  have hcongr : ∀ x ∈ l,
      (decide ((if x.id = cid then f x else x).mission_id = mid ∧
        (if x.id = cid then f x else x).mission_item_id = miid ∧
        pendingStatus (if x.id = cid then f x else x).status ∧
        (cid = 0 ∨ (if x.id = cid then f x else x).id ≠ cid))) =
      (decide (x.mission_id = mid ∧ x.mission_item_id = miid) && !(decide (x.id = cid))) := by
    intro x hx
    by_cases hid : x.id = cid
    · simp [if_pos hid, hf_m, hf_mi, hf_st, pendingStatus, hid]
    · by_cases hsame : x.mission_id = mid ∧ x.mission_item_id = miid
      · have hst := hothers x hx hsame.1 hsame.2 hid
        simp [if_neg hid, hsame.1, hsame.2, hst, pendingStatus, hid]
      · rcases not_and_or.mp hsame with h | h <;> simp [if_neg hid, h, hid]
  rw [countP_congr_mem l _ _ hcongr]
  have hsplit := countP_split l
    (fun x => decide (x.mission_id = mid ∧ x.mission_item_id = miid))
    (fun x => decide (x.id = cid))
  have hone : l.countP (fun x =>
      decide (x.mission_id = mid ∧ x.mission_item_id = miid) && decide (x.id = cid)) = 1 := by
    refine countP_eq_one_unique l c (List.Nodup.of_map _ hids) hcl _ (fun x hx => ?_)
    constructor
    · intro hx2
      simp only [Bool.and_eq_true, decide_eq_true_eq] at hx2
      exact List.inj_on_of_nodup_map hids hx hcl (by rw [hx2.2, hcid])
    · intro hx2
      subst hx2
      simp [hcm, hcmi, hcid]
  omega

/-- Effect of the FOUND write followed by the auto-skip UPDATE on each
check row: the just-marked check ends `FOUND`, every other pending check
of the same mission item ends `SKIPPED_AUTO`. -/
theorem autoskip_forall₂ (l : List PositionCheck) (mid miid cid : Nat)
    (hothers : ∀ x ∈ l, x.mission_id = mid → x.mission_item_id = miid → x.id ≠ cid →
      x.status = "TO_CHECK")
    (f : PositionCheck → PositionCheck)
    (hf_st : ∀ x, (f x).status = "FOUND") :
    List.Forall₂ (fun x y => (x.id = cid → y.status = "FOUND") ∧
      (x.id ≠ cid → x.mission_id = mid → x.mission_item_id = miid →
        y.status = "SKIPPED_AUTO"))
      l ((l.map (fun x => if x.id = cid then f x else x)).map (fun x =>
        if decide (x.mission_id = mid ∧ x.mission_item_id = miid ∧
            pendingStatus x.status ∧ (cid = 0 ∨ x.id ≠ cid)) = true then
          { x with status := "SKIPPED_AUTO",
                   notes := some "Auto-skipped: All missing items found" }
        else x)) := by
  rw [List.map_map]
  refine forall₂_map_self _ _ _ (fun x hx => ?_)
  constructor
  · intro hid
    have hnot : ¬ ((f x).mission_id = mid ∧ (f x).mission_item_id = miid ∧
        pendingStatus (f x).status ∧ (cid = 0 ∨ (f x).id ≠ cid)) := by
      rw [hf_st]
      intro hcon
      rcases hcon.2.2.1 with h | h <;> simp at h
    have hcond : ¬ (decide ((f x).mission_id = mid ∧ (f x).mission_item_id = miid ∧
        pendingStatus (f x).status ∧ (cid = 0 ∨ (f x).id ≠ cid)) = true) := by
      simpa using hnot
    simp only [Function.comp_apply, Function.comp, if_pos hid]
    rw [if_neg hcond]
    exact hf_st x
  · intro hid hm hmi
    have hstx := hothers x hx hm hmi hid
    have hskip : decide (x.mission_id = mid ∧ x.mission_item_id = miid ∧
        pendingStatus x.status ∧ (cid = 0 ∨ x.id ≠ cid)) = true := by
      simp [hm, hmi, hstx, pendingStatus, hid]
    simp [Function.comp, if_neg hid, hskip]

/-- C3: a `mark_found` on a `TO_CHECK` check that lifts the owning item's
cumulative `qty_found` to at least `qty_missing` succeeds, reports the
item resolved, auto-skips exactly the item's other N−1 checks (all still
`TO_CHECK`), reports that count, and leaves the just-marked check `FOUND`
— the skip query, running after the flushed FOUND write and excluding the
current check id, cannot re-select it. -/
theorem C3_autoskip (db : DB) (cid : Nat) (cb : String) (qfa : Option Int)
    (notes : Option String) (c : PositionCheck) (it : MissionItem)
    (hc : db.findCheck cid = some c)
    (hst : c.status = "TO_CHECK")
    (hit : db.findItem c.mission_item_id = some it)
    (hres : it.qty_missing ≤ it.qty_found + qfa.getD 1)
    (hothers : ∀ x ∈ db.checks, x.mission_id = c.mission_id →
      x.mission_item_id = c.mission_item_id → x.id ≠ cid → x.status = "TO_CHECK")
    (hids : (db.checks.map (fun x => x.id)).Nodup) :
    (markFound db cid cb qfa notes).1.success = true ∧
    (markFound db cid cb qfa notes).1.item_resolved = true ∧
    (markFound db cid cb qfa notes).1.positions_auto_skipped =
      (db.checks.filter (fun x => decide (x.mission_id = c.mission_id ∧
        x.mission_item_id = c.mission_item_id))).length - 1 ∧
    List.Forall₂ (fun x y =>
      (x.id = cid → y.status = "FOUND") ∧
      (x.id ≠ cid → x.mission_id = c.mission_id → x.mission_item_id = c.mission_item_id →
        y.status = "SKIPPED_AUTO")) db.checks (markFound db cid cb qfa notes).2.checks := by
  have hpend : pendingStatus c.status := Or.inl hst
  have hdec : decide (it.qty_missing ≤ it.qty_found + qfa.getD 1) = true := decide_eq_true hres
  have hc2 : db.checks.find? (fun x => decide (x.id = cid)) = some c := hc
  have hcmem : c ∈ db.checks := List.mem_of_find?_eq_some hc2
  have hcid0 := List.find?_some hc2
  have hcid : c.id = cid := of_decide_eq_true hcid0
  unfold markFound
  rw [hc]
  dsimp only
  rw [if_pos hpend, hit]
  dsimp only
  rw [hdec]
  simp only [if_pos rfl, checkMissionCompletion_checks, autoSkip_fst, autoSkip_checks,
    DB.updateCheck, DB.updateItem]
  refine ⟨trivial, trivial, ?_, ?_⟩
  · exact autoskip_count db.checks c.mission_id c.mission_item_id cid c hcmem hcid rfl rfl
      hothers hids _ (fun x => rfl) (fun x => rfl) (fun x => rfl)
  · exact autoskip_forall₂ db.checks c.mission_id c.mission_item_id cid hothers
      _ (fun x => rfl)

def dbC3 : DB where
  missions := [⟨1, "PSM-20250101-005", "X0403", some 5, "OPEN", "sys", false, false⟩]
  items := [⟨1, 1, "O1", 5, "SKU1", some 7, 2, 0, 2, 0, false⟩]
  checks := [⟨1, 1, 1, some "U1", some 7, "A1", "TO_CHECK",
    Option.none, Option.none, Option.none, Option.none⟩,
    ⟨2, 1, 1, some "U2", some 7, "B1", "TO_CHECK",
    Option.none, Option.none, Option.none, Option.none⟩,
    ⟨3, 1, 1, some "U3", some 7, "C1", "TO_CHECK",
    Option.none, Option.none, Option.none, Option.none⟩]
  orders := []
  orderItems := []
  inventory := []
  locations := []
  nextMissionId := 2
  nextItemId := 2
  nextCheckId := 4

def cC3 : PositionCheck :=
  ⟨1, 1, 1, some "U1", some 7, "A1", "TO_CHECK",
    Option.none, Option.none, Option.none, Option.none⟩

def itC3 : MissionItem := ⟨1, 1, "O1", 5, "SKU1", some 7, 2, 0, 2, 0, false⟩

/-- C3, witness: an item with 3 checks; marking one FOUND with quantity 2
(covering the shortfall) auto-skips exactly the 2 others. -/
theorem C3_autoskip_witness :
    (markFound dbC3 1 "op" (some 2) Option.none).1.success = true ∧
    (markFound dbC3 1 "op" (some 2) Option.none).1.item_resolved = true ∧
    (markFound dbC3 1 "op" (some 2) Option.none).1.positions_auto_skipped =
      (dbC3.checks.filter (fun x => decide (x.mission_id = cC3.mission_id ∧
        x.mission_item_id = cC3.mission_item_id))).length - 1 ∧
    List.Forall₂ (fun x y =>
      (x.id = 1 → y.status = "FOUND") ∧
      (x.id ≠ 1 → x.mission_id = cC3.mission_id → x.mission_item_id = cC3.mission_item_id →
        y.status = "SKIPPED_AUTO")) dbC3.checks (markFound dbC3 1 "op" (some 2) Option.none).2.checks :=
  C3_autoskip dbC3 1 "op" (some 2) Option.none cC3 itC3
    (by decide) (by decide) (by decide) (by decide) (by decide) (by decide)

/-! ## C4: shortfall correctness of the missing-item resolver -/

theorem assocGetD_add {α : Type} [DecidableEq α] (m : List (α × Int)) (k k2 : α) (q : Int) :
    assocGetD (assocAdd m k q) k2 = assocGetD m k2 + (if k = k2 then q else 0) := by
  induction m with
  | nil =>
    by_cases h : k = k2 <;> simp [assocAdd, assocGetD, List.find?, h]
  | cons p rest ih =>
    rcases p with ⟨k0, q0⟩
    by_cases h0 : k0 = k
    · subst h0
      by_cases h2 : k0 = k2 <;> simp [assocAdd, assocGetD, List.find?, h2] <;> omega
    · by_cases h2 : k0 = k2
      · subst h2
        have : ¬ k = k0 := fun h => h0 h.symm
        simp [assocAdd, assocGetD, List.find?, h0, this]
      · simp only [assocAdd, if_neg h0]
        simp only [assocGetD, List.find?, decide_eq_true_eq] at ih ⊢
        simp [h2, ih]

/-- The cumulative value of a key after folding `assocAdd` over a list of
key/quantity pairs is the starting value plus the sum of the matching
quantities. -/
theorem assocGetD_foldl {α : Type} [DecidableEq α] (l : List (α × Int)) (m : List (α × Int))
    (k : α) :
    assocGetD (l.foldl (fun acc p => assocAdd acc p.1 p.2) m) k =
      assocGetD m k + ((l.filter (fun p => p.1 = k)).map (fun p => p.2)).sum := by
  induction l generalizing m with
  | nil => simp
  | cons p rest ih =>
    simp only [List.foldl_cons, List.filter_cons]
    by_cases h : p.1 = k
    · rw [ih, assocGetD_add]
      simp [h]
      omega
    · rw [ih, assocGetD_add]
      simp [h]

/-- `shipped_map` value at a key = sum of the quantities of the shipped
records carrying exactly that key. -/
theorem buildShippedMap_getD_aux (shipped : List ShippedRec)
    (m : List ((String × Int × String) × Int)) (k : String × Int × String) :
    assocGetD (shipped.foldl (fun m2 r =>
      match shippedKey r with
      | some k2 => assocAdd m2 k2 r.qty
      | Option.none => m2) m) k =
      assocGetD m k +
        ((shipped.filter (fun r => shippedKey r = some k)).map (fun r => r.qty)).sum := by
  induction shipped generalizing m with
  | nil => simp
  | cons r rest ih =>
    simp only [List.foldl_cons, List.filter_cons]
    cases hk : shippedKey r with
    | none =>
      simp only [hk]
      rw [ih]
      simp
    | some k2 =>
      by_cases h2 : k2 = k
      · subst h2
        simp only [hk]
        rw [ih, assocGetD_add]
        simp
        omega
      · simp only [hk]
        rw [ih, assocGetD_add]
        simp [h2, Ne.symm h2]

/-- The claim's `S`: cumulative shipped quantity over the records sharing
the `(order_number, pick_list_id, sku)` key (0 when none matches). -/
def shippedSum (shipped : List ShippedRec) (onum : String) (nl : Int) (sk : String) : Int :=
  ((shipped.filter (fun r =>
    r.nOrdine = some onum ∧ r.nLista = some nl ∧ r.sku = some sk)).map (fun r => r.qty)).sum

/-- For a non-degenerate key (non-empty order number and sku, non-zero
pick list) the `shipped_map` lookup is exactly the claim's `S`. -/
theorem shippedSum_eq_mapGetD (shipped : List ShippedRec) (onum : String) (nl : Int)
    (sk : String) (hon : onum ≠ "") (hln : nl ≠ 0) (hsk : sk ≠ "") :
    assocGetD (buildShippedMap shipped) (onum, nl, sk) = shippedSum shipped onum nl sk := by
  unfold buildShippedMap
  rw [buildShippedMap_getD_aux]
  unfold shippedSum
  have : assocGetD ([] : List ((String × Int × String) × Int)) (onum, nl, sk) = 0 := rfl
  rw [this, zero_add]
  have hfeq : shipped.filter (fun r => decide (shippedKey r = some (onum, nl, sk))) =
      shipped.filter (fun r =>
        decide (r.nOrdine = some onum ∧ r.nLista = some nl ∧ r.sku = some sk)) := by
    apply List.filter_congr
    intro r _
    simp only [decide_eq_decide]
    unfold shippedKey
    rcases r with ⟨rn, ro, rs, rq⟩
    dsimp only
    cases ro with
    | none => simp
    | some ov =>
      cases rn with
      | none => simp
      | some nv =>
        cases rs with
        | none => simp
        | some sv =>
          by_cases htr : ov ≠ "" ∧ nv ≠ 0 ∧ sv ≠ ""
          · simp [if_pos htr]
          · simp only [if_neg htr]
            constructor
            · intro h; cases h
            · rintro ⟨h1, h2, h3⟩
              exact absurd ⟨Option.some_inj.mp h1 ▸ hon, Option.some_inj.mp h2 ▸ hln,
                Option.some_inj.mp h3 ▸ hsk⟩ htr
  rw [hfeq]

/-- C4: for every candidate `OrderItem` (its pick list among the extracted
ones, joined to its order, with a non-degenerate composite key), with
`Q = qty_ordered` and `S` the cumulative shipped quantity of the records
sharing its `(order_number, pick_list_id, sku)` key (`S = 0` when none
matches), the resolver emits a shortfall line iff `Q > S`, and that line
carries `qty_missing = Q − S`, `qty_shipped = S`, `qty_ordered = Q`. -/
theorem C4_shortfall (db : DB) (shipped : List ShippedRec) (oi : OrderItem) (o : Order)
    (hmem : oi ∈ db.orderItems)
    (hnl : oi.n_lista ∈ shippedNListas shipped)
    (ho : db.findOrder oi.order_id = some o)
    (hon : o.order_number ≠ "") (hln : oi.n_lista ≠ 0) (hsk : oi.sku ≠ "") :
    (shippedSum shipped o.order_number oi.n_lista oi.sku < oi.qty_ordered →
      ∃ line, emitMissing db (buildShippedMap shipped) oi = some line ∧
        line ∈ findMissingItemsFixed db shipped ∧
        line.n_ordine = o.order_number ∧ line.n_lista = oi.n_lista ∧ line.sku = oi.sku ∧
        line.qty_ordered = oi.qty_ordered ∧
        line.qty_shipped = shippedSum shipped o.order_number oi.n_lista oi.sku ∧
        line.qty_missing =
          oi.qty_ordered - shippedSum shipped o.order_number oi.n_lista oi.sku) ∧
    (oi.qty_ordered ≤ shippedSum shipped o.order_number oi.n_lista oi.sku →
      emitMissing db (buildShippedMap shipped) oi = Option.none) := by
  have hS := shippedSum_eq_mapGetD shipped o.order_number oi.n_lista oi.sku hon hln hsk
  constructor
  · intro hlt
    have hemit : emitMissing db (buildShippedMap shipped) oi =
        some ⟨o.order_number, oi.n_lista, oi.listone, oi.sku, oi.qty_ordered,
          shippedSum shipped o.order_number oi.n_lista oi.sku,
          oi.qty_ordered - shippedSum shipped o.order_number oi.n_lista oi.sku,
          Option.none⟩ := by
      unfold emitMissing
      rw [ho]
      dsimp only
      rw [hS, if_pos (by omega)]
    refine ⟨_, hemit, ?_, rfl, rfl, rfl, rfl, rfl, rfl⟩
    unfold findMissingItemsFixed
    have hne : shippedNListas shipped ≠ [] := by
      intro h; rw [h] at hnl; cases hnl
    rw [if_neg hne]
    exact List.mem_filterMap.mpr ⟨oi,
      List.mem_filter.mpr ⟨hmem, by simpa using hnl⟩, hemit⟩
  · intro hge
    unfold emitMissing
    rw [ho]
    dsimp only
    rw [hS, if_neg (by omega)]

def dbC4 : DB where
  missions := []
  items := []
  checks := []
  orders := [⟨1, "ORD1"⟩]
  orderItems := [⟨1, 1, 5, some 7, "SKU1", 10⟩]
  inventory := []
  locations := []
  nextMissionId := 1
  nextItemId := 1
  nextCheckId := 1

def shippedC4 : List ShippedRec :=
  [⟨some 5, some "ORD1", some "SKU1", 3⟩, ⟨some 5, some "ORD1", some "SKU1", 4⟩,
    ⟨some 5, some "ORD1", some "SKU2", 9⟩]

def oiC4 : OrderItem := ⟨1, 1, 5, some 7, "SKU1", 10⟩

/-- C4, witness: Q = 10 ordered, S = 3 + 4 = 7 shipped over two matching
records; the resolver emits a line with `qty_missing = 3`. -/
theorem C4_shortfall_witness :
    (shippedSum shippedC4 "ORD1" 5 "SKU1" < oiC4.qty_ordered →
      ∃ line, emitMissing dbC4 (buildShippedMap shippedC4) oiC4 = some line ∧
        line ∈ findMissingItemsFixed dbC4 shippedC4 ∧
        line.n_ordine = "ORD1" ∧ line.n_lista = oiC4.n_lista ∧ line.sku = oiC4.sku ∧
        line.qty_ordered = oiC4.qty_ordered ∧
        line.qty_shipped = shippedSum shippedC4 "ORD1" 5 "SKU1" ∧
        line.qty_missing = oiC4.qty_ordered - shippedSum shippedC4 "ORD1" 5 "SKU1") ∧
    (oiC4.qty_ordered ≤ shippedSum shippedC4 "ORD1" 5 "SKU1" →
      emitMissing dbC4 (buildShippedMap shippedC4) oiC4 = Option.none) :=
  C4_shortfall dbC4 shippedC4 oiC4 ⟨1, "ORD1"⟩
    (by decide) (by decide) (by decide) (by decide) (by decide) (by decide)

/-! ## C5: batch grouping by the full composite key -/

def findGroup (gs : List GroupedLine) (k : String × Option Int × String × Int) :
    Option GroupedLine :=
  gs.find? (fun g => g.key = k)

/-- The cesta-accumulation step of `combineInto`, in isolation. -/
def cestaStep (cs : List String) (l : MissingLine) : List String :=
  match l.cesta with
  | some c => if c ≠ "" ∧ c ∉ cs then cs ++ [c] else cs
  | Option.none => cs

theorem initGroup_key (k : String × Option Int × String × Int) : (initGroup k).key = k := rfl

theorem combineInto_key (g : GroupedLine) (l : MissingLine) :
    (combineInto g l).key = g.key := by
  unfold combineInto
  cases l.cesta with
  | none => rfl
  | some c =>
    dsimp only
    split
    · rfl
    · rfl

theorem combineInto_fields (g : GroupedLine) (l : MissingLine) :
    (combineInto g l).qty_ordered = g.qty_ordered + l.qty_ordered ∧
    (combineInto g l).qty_shipped = g.qty_shipped + l.qty_shipped ∧
    (combineInto g l).qty_missing = g.qty_missing + l.qty_missing ∧
    (combineInto g l).cestas = cestaStep g.cestas l := by
  unfold combineInto cestaStep
  cases l.cesta with
  | none => exact ⟨rfl, rfl, rfl, rfl⟩
  | some c =>
    dsimp only
    split
    · exact ⟨rfl, rfl, rfl, rfl⟩
    · exact ⟨rfl, rfl, rfl, rfl⟩

theorem findGroup_groupStep (acc : List GroupedLine) (l : MissingLine)
    (k : String × Option Int × String × Int) :
    findGroup (groupStep acc l) k =
      if lineKey l = k then
        match findGroup acc k with
        | some g => some (combineInto g l)
        | Option.none => some (combineInto (initGroup (lineKey l)) l)
      else findGroup acc k := by
  induction acc with
  | nil =>
    by_cases hk : lineKey l = k
    · simp [groupStep, findGroup, List.find?, combineInto_key, initGroup_key, hk]
    · simp [groupStep, findGroup, List.find?, combineInto_key, initGroup_key, hk]
  | cons g rest ih =>
    unfold groupStep
    by_cases hg : g.key = lineKey l
    · simp only [if_pos hg]
      by_cases hk : lineKey l = k
      · subst hk
        simp [findGroup, List.find?, combineInto_key, hg]
      · have hgk : ¬ (g.key = k) := fun h => hk (hg.symm.trans h)
        simp [findGroup, List.find?, combineInto_key, hg, hk, hgk]
    · simp only [if_neg hg]
      by_cases hgk : g.key = k
      · have hk : ¬ (lineKey l = k) := fun h => hg (hgk.trans h.symm)
        simp [findGroup, List.find?, hgk, hk]
      · simp only [findGroup, List.find?] at ih ⊢
        simp [hgk, ih]

theorem findGroup_fold (items : List MissingLine) (acc : List GroupedLine)
    (k : String × Option Int × String × Int) :
    findGroup (items.foldl groupStep acc) k =
      match findGroup acc k with
      | some g => some ((items.filter (fun l => lineKey l = k)).foldl combineInto g)
      | Option.none =>
        if (items.filter (fun l => lineKey l = k)) = [] then Option.none
        else some ((items.filter (fun l => lineKey l = k)).foldl combineInto (initGroup k)) := by
  induction items generalizing acc with
  | nil => cases h : findGroup acc k <;> simp [h]
  | cons l rest ih =>
    simp only [List.foldl_cons, List.filter_cons]
    rw [ih, findGroup_groupStep]
    by_cases hk : lineKey l = k
    · simp only [if_pos hk, hk, decide_eq_true_eq]
      cases h : findGroup acc k with
      | some g => simp [h]
      | none => simp [h]
    · have hd : decide (lineKey l = k) = false := decide_eq_false hk
      simp only [if_neg hk, hd, Bool.false_eq_true, if_false]

theorem foldl_combineInto_fields (ls : List MissingLine) (g : GroupedLine) :
    (ls.foldl combineInto g).qty_ordered =
      g.qty_ordered + (ls.map (fun l => l.qty_ordered)).sum ∧
    (ls.foldl combineInto g).qty_shipped =
      g.qty_shipped + (ls.map (fun l => l.qty_shipped)).sum ∧
    (ls.foldl combineInto g).qty_missing =
      g.qty_missing + (ls.map (fun l => l.qty_missing)).sum ∧
    (ls.foldl combineInto g).cestas = ls.foldl cestaStep g.cestas := by
  induction ls generalizing g with
  | nil => simp
  | cons l rest ih =>
    simp only [List.foldl_cons, List.map_cons, List.sum_cons]
    rcases combineInto_fields g l with ⟨c1, c2, c3, c4⟩
    rcases ih (combineInto g l) with ⟨i1, i2, i3, i4⟩
    refine ⟨?_, ?_, ?_, ?_⟩
    · rw [i1, c1]; omega
    · rw [i2, c2]; omega
    · rw [i3, c3]; omega
    · rw [i4, c4]

theorem groupStep_keys (acc : List GroupedLine) (l : MissingLine) :
    (groupStep acc l).map GroupedLine.key =
      if lineKey l ∈ acc.map GroupedLine.key then acc.map GroupedLine.key
      else acc.map GroupedLine.key ++ [lineKey l] := by
  induction acc with
  | nil => simp [groupStep, combineInto_key, initGroup_key]
  | cons g rest ih =>
    unfold groupStep
    by_cases hg : g.key = lineKey l
    · have hmem2 : lineKey l ∈ (g :: rest).map GroupedLine.key := by
        rw [List.map_cons]
        exact List.mem_cons.mpr (Or.inl hg.symm)
      rw [if_pos hg, if_pos hmem2, List.map_cons, List.map_cons, combineInto_key]
    · have hne : ¬ (lineKey l = g.key) := fun h => hg h.symm
      simp only [if_neg hg, List.map_cons, ih, List.mem_cons]
      by_cases hmem : lineKey l ∈ rest.map GroupedLine.key
      · simp [hmem, hne]
      · simp [hmem, hne]

theorem groupFold_keys (items : List MissingLine) (acc : List GroupedLine)
    (hacc : (acc.map GroupedLine.key).Nodup) :
    ((items.foldl groupStep acc).map GroupedLine.key).Nodup ∧
    ∀ k, (k ∈ (items.foldl groupStep acc).map GroupedLine.key ↔
      k ∈ acc.map GroupedLine.key ∨ k ∈ items.map lineKey) := by
  induction items generalizing acc with
  | nil => simp [hacc]
  | cons l rest ih =>
    simp only [List.foldl_cons, List.map_cons]
    have hstep := groupStep_keys acc l
    by_cases hmem : lineKey l ∈ acc.map GroupedLine.key
    · have hkeys : (groupStep acc l).map GroupedLine.key = acc.map GroupedLine.key := by
        rw [hstep, if_pos hmem]
      have hnd : ((groupStep acc l).map GroupedLine.key).Nodup := by rw [hkeys]; exact hacc
      rcases ih (groupStep acc l) hnd with ⟨h1, h2⟩
      refine ⟨h1, fun k => ?_⟩
      rw [h2 k, hkeys, List.mem_cons]
      constructor
      · rintro (h | h)
        · exact Or.inl h
        · exact Or.inr (Or.inr h)
      · rintro (h | h | h)
        · exact Or.inl h
        · exact Or.inl (h ▸ hmem)
        · exact Or.inr h
    · have hkeys : (groupStep acc l).map GroupedLine.key =
          acc.map GroupedLine.key ++ [lineKey l] := by rw [hstep, if_neg hmem]
      have hnd : ((groupStep acc l).map GroupedLine.key).Nodup := by
        rw [hkeys]
        simp [List.nodup_append, hacc, hmem]
      rcases ih (groupStep acc l) hnd with ⟨h1, h2⟩
      refine ⟨h1, fun k => ?_⟩
      rw [h2 k, hkeys, List.mem_cons, List.mem_append, List.mem_singleton]
      constructor
      · rintro ((h | h) | h)
        · exact Or.inl h
        · exact Or.inr (Or.inl h)
        · exact Or.inr (Or.inr h)
      · rintro (h | h | h)
        · exact Or.inl (Or.inl h)
        · exact Or.inl (Or.inr h)
        · exact Or.inr h

/-- C5: the batch grouping merges shortfall lines by the full composite
key `(sku, pick_list_group, order_number, pick_list_id)`.  For each key
occurring in the input there is exactly one grouped item, whose
quantities are the sums over exactly the lines with that full key (so two
lines differing in `order_number` or `pick_list_id` are never merged) and
whose contributing basket codes are accumulated in first-seen order; the
number of grouped items is at least (indeed exactly) the number of
distinct composite-key tuples. -/
theorem C5_grouping (items : List MissingLine) :
    (items.map lineKey).dedup.length ≤ (groupItemsBySkuListone items).length ∧
    ∀ k, k ∈ items.map lineKey →
      ∃ g, findGroup (groupItemsBySkuListone items) k = some g ∧
        g ∈ groupItemsBySkuListone items ∧
        (∀ g2 ∈ groupItemsBySkuListone items, g2.key = k → g2 = g) ∧
        g.qty_ordered =
          ((items.filter (fun l => lineKey l = k)).map (fun l => l.qty_ordered)).sum ∧
        g.qty_shipped =
          ((items.filter (fun l => lineKey l = k)).map (fun l => l.qty_shipped)).sum ∧
        g.qty_missing =
          ((items.filter (fun l => lineKey l = k)).map (fun l => l.qty_missing)).sum ∧
        g.cestas = (items.filter (fun l => lineKey l = k)).foldl cestaStep [] := by
  have hkeys := groupFold_keys items [] (by simp)
  rcases hkeys with ⟨hnd, hmemiff⟩
  constructor
  · have hperm : ((items.foldl groupStep []).map GroupedLine.key).Perm
        (items.map lineKey).dedup := by
      refine (List.perm_ext_iff_of_nodup hnd (List.nodup_dedup _)).mpr (fun k => ?_)
      rw [hmemiff k, List.mem_dedup]
      simp
    have hlen := hperm.length_eq
    rw [List.length_map] at hlen
    unfold groupItemsBySkuListone
    omega
  · intro k hk
    have hmatch : items.filter (fun l => lineKey l = k) ≠ [] := by
      rcases List.mem_map.mp hk with ⟨l, hl, rfl⟩
      intro hemp
      have hin : l ∈ items.filter (fun l2 => lineKey l2 = lineKey l) :=
        List.mem_filter.mpr ⟨hl, by simp⟩
      rw [hemp] at hin
      cases hin
    have hfg : findGroup (groupItemsBySkuListone items) k =
        some ((items.filter (fun l => lineKey l = k)).foldl combineInto (initGroup k)) := by
      unfold groupItemsBySkuListone
      rw [findGroup_fold items [] k]
      have hnone : findGroup [] k = Option.none := rfl
      rw [hnone]
      rw [if_neg hmatch]
    refine ⟨_, hfg, ?_, ?_, ?_, ?_, ?_, ?_⟩
    · exact List.mem_of_find?_eq_some hfg
    · intro g2 hg2 hk2
      have hfg2 : (groupItemsBySkuListone items).find? (fun g => decide (g.key = k)) =
          some ((items.filter (fun l => lineKey l = k)).foldl combineInto (initGroup k)) := hfg
      have hgk := List.find?_some hfg2
      exact List.inj_on_of_nodup_map hnd hg2 (List.mem_of_find?_eq_some hfg2)
        (by rw [hk2]; exact (of_decide_eq_true hgk).symm)
    · rcases foldl_combineInto_fields (items.filter (fun l => lineKey l = k))
        (initGroup k) with ⟨h1, _, _, _⟩
      rw [h1]
      simp [initGroup]
    · rcases foldl_combineInto_fields (items.filter (fun l => lineKey l = k))
        (initGroup k) with ⟨_, h2, _, _⟩
      rw [h2]
      simp [initGroup]
    · rcases foldl_combineInto_fields (items.filter (fun l => lineKey l = k))
        (initGroup k) with ⟨_, _, h3, _⟩
      rw [h3]
      simp [initGroup]
    · rcases foldl_combineInto_fields (items.filter (fun l => lineKey l = k))
        (initGroup k) with ⟨_, _, _, h4⟩
      rw [h4]
      rfl

def itemsC5 : List MissingLine :=
  [⟨"O1", 5, some 7, "SKU1", 10, 3, 7, some "X1"⟩,
   ⟨"O1", 5, some 7, "SKU1", 4, 1, 3, some "X2"⟩,
   ⟨"O2", 6, some 7, "SKU1", 2, 0, 2, some "X1"⟩]

/-- C5, witness: two lines with the same full key merge (sums 14/4/10,
cestas ["X1","X2"]); the third line shares sku and listone but differs in
order/pick list and stays separate, giving 2 groups for 2 distinct keys. -/
theorem C5_grouping_witness :
    ((itemsC5.map lineKey).dedup.length ≤ (groupItemsBySkuListone itemsC5).length) ∧
    (∃ g, findGroup (groupItemsBySkuListone itemsC5) ("SKU1", some 7, "O1", 5) = some g ∧
      g ∈ groupItemsBySkuListone itemsC5 ∧
      (∀ g2 ∈ groupItemsBySkuListone itemsC5, g2.key = ("SKU1", some 7, "O1", 5) → g2 = g) ∧
      g.qty_ordered = ((itemsC5.filter
        (fun l => lineKey l = ("SKU1", some 7, "O1", 5))).map (fun l => l.qty_ordered)).sum ∧
      g.qty_shipped = ((itemsC5.filter
        (fun l => lineKey l = ("SKU1", some 7, "O1", 5))).map (fun l => l.qty_shipped)).sum ∧
      g.qty_missing = ((itemsC5.filter
        (fun l => lineKey l = ("SKU1", some 7, "O1", 5))).map (fun l => l.qty_missing)).sum ∧
      g.cestas = (itemsC5.filter
        (fun l => lineKey l = ("SKU1", some 7, "O1", 5))).foldl cestaStep []) :=
  ⟨(C5_grouping itemsC5).1, (C5_grouping itemsC5).2 ("SKU1", some 7, "O1", 5) (by decide)⟩

/-! ## C2: at most one active mission per (cesta, reference pick list) -/

theorem insertChecks_missions (db : DB) (mid : Nat) (plan : List CheckPlan) :
    (insertChecks db mid plan).missions = db.missions := by
  induction plan generalizing db with
  | nil => rfl
  | cons p rest ih => exact ih _

theorem generatePositionChecks_missions (db : DB) (mid : Nat) (lines : List MissingLine) :
    (generatePositionChecks db mid lines).2.missions = db.missions :=
  insertChecks_missions _ _ _

theorem insertMissionItems_missions (db : DB) (mid : Nat) (ls : List MissingLine) :
    (insertMissionItems db mid ls).missions = db.missions := by
  induction ls generalizing db with
  | nil => rfl
  | cons l rest ih => exact ih _

/-- Inversion of a successful single-cesta creation: it can only happen
when the duplicate guard found nothing, and it appends exactly one OPEN
mission row carrying the cesta and the minimum shipped pick list. -/
theorem created_inv (db : DB) (cesta cb : String) (shipped : List ShippedRec)
    (today : String) (mid : Nat) (code : String) (n k : Nat)
    (h : (createMissionFromCesta db cesta cb shipped today).1 =
      CreateResult.created mid code n k) :
    shipped ≠ [] ∧
    ∃ ref, refNLista shipped = some ref ∧
      findExistingMission db cesta ref = Option.none ∧
      mid = db.nextMissionId ∧
      code = generateMissionCode db.missions today ∧
      (createMissionFromCesta db cesta cb shipped today).2.missions =
        db.missions ++ [⟨mid, code, cesta, some ref, "OPEN", cb, false, false⟩] := by
  unfold createMissionFromCesta at h ⊢
  by_cases h0 : shipped = []
  · rw [if_pos h0] at h; cases h
  · rw [if_neg h0] at h ⊢
    cases href : refNLista shipped with
    | none => rw [href] at h; cases h
    | some ref =>
      rw [href] at h
      dsimp only at h
      cases hex : findExistingMission db cesta ref with
      | some m => rw [hex] at h; cases h
      | none =>
        rw [hex] at h
        dsimp only at h ⊢
        by_cases hm : findMissingItemsFixed db shipped = []
        · rw [if_pos hm] at h; cases h
        · rw [if_neg hm] at h ⊢
          injection h with h1 h2 h3 h4
          rw [hex]
          dsimp only
          refine ⟨h0, ref, rfl, hex, h1.symm, h2.symm, ?_⟩
          rw [generatePositionChecks_missions, insertMissionItems_missions]
          rw [h1, h2]

/-- C2: calling single-cesta creation a second time, after a first call
created a mission (OPEN) for the same cesta and shipped data, returns the
existing mission — same `mission_id`, the `already_exists` branch — and
leaves the store untouched: no second `Mission` row is created.  The
operator and day may differ between the calls. -/
theorem C2_idempotent (db : DB) (cesta cb cb2 today today2 : String)
    (shipped : List ShippedRec) (mid : Nat) (code : String) (n k : Nat)
    (h : (createMissionFromCesta db cesta cb shipped today).1 =
      CreateResult.created mid code n k) :
    (createMissionFromCesta (createMissionFromCesta db cesta cb shipped today).2
        cesta cb2 shipped today2).1 = CreateResult.alreadyExists mid code "OPEN" ∧
    (createMissionFromCesta (createMissionFromCesta db cesta cb shipped today).2
        cesta cb2 shipped today2).2 = (createMissionFromCesta db cesta cb shipped today).2 := by
  rcases created_inv db cesta cb shipped today mid code n k h with
    ⟨h0, ref, href, hex, _hmid, _hcode, hmis⟩
  set db2 := (createMissionFromCesta db cesta cb shipped today).2 with hdb2
  have hfind2 : findExistingMission db2 cesta ref =
      some ⟨mid, code, cesta, some ref, "OPEN", cb, false, false⟩ := by
    unfold findExistingMission at hex ⊢
    rw [hmis, List.filter_append]
    have hnil : db.missions.filter (fun m => decide (m.cesta = cesta ∧
        m.reference_n_lista = some ref ∧ (m.status = "OPEN" ∨ m.status = "IN_PROGRESS"))) =
        [] := by
      cases hl : db.missions.filter (fun m => decide (m.cesta = cesta ∧
          m.reference_n_lista = some ref ∧
          (m.status = "OPEN" ∨ m.status = "IN_PROGRESS"))) with
      | nil => rfl
      | cons a t =>
        rw [hl] at hex
        simp [List.getLast?_eq_getLast] at hex
    rw [hnil]
    have hM : List.filter (fun m => decide (m.cesta = cesta ∧
        m.reference_n_lista = some ref ∧ (m.status = "OPEN" ∨ m.status = "IN_PROGRESS")))
        [(⟨mid, code, cesta, some ref, "OPEN", cb, false, false⟩ : Mission)] =
        [⟨mid, code, cesta, some ref, "OPEN", cb, false, false⟩] := by
      simp
    rw [hM]
    rfl
  unfold createMissionFromCesta
  rw [if_neg h0, href]
  dsimp only
  rw [hfind2]
  exact ⟨rfl, rfl⟩

def dbC2 : DB where
  missions := []
  items := []
  checks := []
  orders := [⟨1, "ORD1"⟩]
  orderItems := [⟨1, 1, 5, some 7, "SKU1", 10⟩]
  inventory := [⟨"U1", "SKU1", 7, 4⟩]
  locations := [⟨"U1", "86265-21-1-3"⟩]
  nextMissionId := 1
  nextItemId := 1
  nextCheckId := 1

def shippedC2 : List ShippedRec := [⟨some 5, some "ORD1", some "SKU1", 3⟩]

/-- C2, witness: a concrete first creation followed by a second call that
returns the same mission id with the store unchanged. -/
theorem C2_idempotent_witness :
    (createMissionFromCesta (createMissionFromCesta dbC2 "X0399" "sys" shippedC2
        "20250101").2 "X0399" "op2" shippedC2 "20250102").1 =
      CreateResult.alreadyExists 1 "PSM-20250101-001" "OPEN" ∧
    (createMissionFromCesta (createMissionFromCesta dbC2 "X0399" "sys" shippedC2
        "20250101").2 "X0399" "op2" shippedC2 "20250102").2 =
      (createMissionFromCesta dbC2 "X0399" "sys" shippedC2 "20250101").2 :=
  C2_idempotent dbC2 "X0399" "sys" "op2" "20250101" "20250102" shippedC2
    1 "PSM-20250101-001" 1 1 (by decide)

/-! ## C9: every rebuild call fails before the DELETE and writes nothing -/

/-- The attribute the clear query of rebuild_udc_inventory.py line 34
evaluates first, `UDCInventory.company`, is declared on none of the three
models the module queries: the lookup raises `AttributeError` before the
DELETE can execute. -/
theorem company_column_absent :
    ¬ ("company" ∈ udcInventoryColumns ∨ "company" ∈ pickingEventColumns ∨
       "company" ∈ orderItemColumns) := by decide

/-- C9: the inventory rebuild is all-or-nothing for the checked-in
program, in the degenerate form the checked-in schema forces: every call
errors (the clear query of line 34 raises `AttributeError` evaluating
`UDCInventory.company`, a column `models.py` does not declare, before the
DELETE runs — see `company_column_absent`), and on that error the
`udc_inventory` contents — indeed the whole store — are left exactly as
they were before the call, so a state where the old rows were cleared but
the new aggregation was not yet inserted is never visible after the
operation returns. -/
theorem C9_all_or_nothing (company : Option String) (db : DB) :
    (rebuildUdcInventory company db).1.success = false ∧
    ((rebuildUdcInventory company db).2).inventory = db.inventory ∧
    (rebuildUdcInventory company db).2 = db :=
  ⟨rfl, rfl, rfl⟩

/-! ## C8: no dedup of (mission_item, unit_load, position_code) triples -/

def dbC8 : DB where
  missions := []
  items := []
  checks := []
  orders := [⟨1, "O1"⟩]
  orderItems := [⟨1, 1, 1, some 7, "S", 1⟩, ⟨2, 1, 2, some 7, "S", 1⟩]
  inventory := [⟨"U", "S", 7, 1⟩]
  locations := []
  nextMissionId := 1
  nextItemId := 1
  nextCheckId := 1

def shippedC8 : List ShippedRec :=
  [⟨some 1, some "O1", some "S", 0⟩, ⟨some 2, some "O1", some "S", 0⟩]

/-- C8, counterexample.  A basket with two shortfall lines sharing
`(sku, listone)` (two pick lists of the same listone, same SKU, nothing
shipped) and one inventory unit load: creation emits one check per line
over the same UDC, and since `mission_items_map` is keyed by
`(sku, listone)` only, both rows carry the same `mission_item_id` —
two `PositionCheck` rows with the identical
`(mission_item_id, udc, position_code)` triple, which the claim says can
never happen.  (The generated rows have distinct primary ids, so they are
two rows, not one.) -/
theorem C8_counterexample :
    ((createMissionFromCesta dbC8 "C1" "sys" shippedC8 "20250101").2.checks.countP
      (fun c => c.mission_item_id = 2 ∧ c.udc = some "U" ∧ c.position_code = "UNKNOWN")) = 2 ∧
    ((createMissionFromCesta dbC8 "C1" "sys" shippedC8 "20250101").2.checks.map
      (fun c => c.id)).Nodup := by decide

def planDistinct (a b : CheckPlan) : Prop :=
  ¬ (a.mission_item_id = b.mission_item_id ∧ a.udc = b.udc ∧
    a.position_code = b.position_code)

def checkDistinct (a b : PositionCheck) : Prop :=
  ¬ (a.mission_item_id = b.mission_item_id ∧ a.udc = b.udc ∧
    a.position_code = b.position_code)

theorem planDistinct_symm : Symmetric planDistinct := by
  intro a b h hc
  exact h ⟨hc.1.symm, hc.2.1.symm, hc.2.2.symm⟩

theorem assocSet_mem (m : List ((String × Int) × Nat)) (k : String × Int) (v : Nat)
    (p : (String × Int) × Nat) (hp : p ∈ assocSet m k v) : p = (k, v) ∨ p ∈ m := by
  induction m with
  | nil =>
    simp [assocSet] at hp
    exact Or.inl hp
  | cons q rest ih =>
    by_cases hk : q.1 = k
    · simp only [assocSet, if_pos hk, List.mem_cons] at hp
      rcases hp with h | h
      · exact Or.inl (by rw [h, hk])
      · exact Or.inr (List.mem_cons.mpr (Or.inr h))
    · simp only [assocSet, if_neg hk, List.mem_cons] at hp
      rcases hp with h | h
      · exact Or.inr (List.mem_cons.mpr (Or.inl h))
      · rcases ih h with h2 | h2
        · exact Or.inl h2
        · exact Or.inr (List.mem_cons.mpr (Or.inr h2))

theorem assocGet_mem (m : List ((String × Int) × Nat)) (k : String × Int) (v : Nat)
    (h : assocGet m k = some v) : (k, v) ∈ m := by
  unfold assocGet at h
  cases hf : m.find? (fun p => decide (p.1 = k)) with
  | none => rw [hf] at h; cases h
  | some q =>
    rw [hf] at h
    have hq0 := List.find?_some hf
    have hq1 : q.1 = k := of_decide_eq_true hq0
    have hq2 : q.2 = v := Option.some_inj.mp h
    have hqm := List.mem_of_find?_eq_some hf
    have : q = (k, v) := Prod.ext hq1 hq2
    exact this ▸ hqm

/-- Every binding of `mission_items_map` comes from a mission item with
that key. -/
theorem mapFold_binding (l : List MissionItem) (S : List MissionItem)
    (hsub : ∀ x ∈ l, x ∈ S) (acc : List ((String × Int) × Nat))
    (hacc : ∀ p ∈ acc, ∃ it, it ∈ S ∧ it.id = p.2 ∧ it.sku = p.1.1 ∧
      it.listone = some p.1.2) :
    ∀ p ∈ l.foldl (fun m mi =>
      match mi.listone with
      | some li => if li ≠ 0 then assocSet m (mi.sku, li) mi.id else m
      | Option.none => m) acc,
      ∃ it, it ∈ S ∧ it.id = p.2 ∧ it.sku = p.1.1 ∧ it.listone = some p.1.2 := by
  induction l generalizing acc with
  | nil => exact hacc
  | cons mi rest ih =>
    intro p hp
    refine ih (fun x hx => hsub x (List.mem_cons_of_mem mi hx)) _ ?_ p hp
    intro q hq
    dsimp only at hq
    cases hmi : mi.listone with
    | none =>
      rw [hmi] at hq
      exact hacc q hq
    | some li =>
      rw [hmi] at hq
      dsimp only at hq
      by_cases hz : li ≠ 0
      · rw [if_pos hz] at hq
        rcases assocSet_mem acc (mi.sku, li) mi.id q hq with h | h
        · exact ⟨mi, hsub mi (List.mem_cons_self mi rest), by rw [h], by rw [h], by
            rw [h, hmi]⟩
        · exact hacc q h
      · rw [if_neg hz] at hq
        exact hacc q hq

theorem missionItemsMap_binding (db : DB) (mid : Nat) :
    ∀ p ∈ missionItemsMap db mid,
      ∃ it, it ∈ db.items ∧ it.id = p.2 ∧ it.sku = p.1.1 ∧ it.listone = some p.1.2 := by
  unfold missionItemsMap
  refine mapFold_binding _ db.items (fun x hx => (List.mem_filter.mp hx).1) [] ?_
  intro p hp
  cases hp

/-- The plan of one line keeps the mission item id resolved through the
map, only for a truthy listone and a non-falsy id. -/
theorem mem_perLinePlan (db : DB) (m : List ((String × Int) × Nat)) (sku : String)
    (lo : Option Int) (x : CheckPlan) (hx : x ∈ perLinePlan db m sku lo) :
    ∃ li v, lo = some li ∧ li ≠ 0 ∧ assocGet m (sku, li) = some v ∧ v ≠ 0 ∧
      x.mission_item_id = v := by
  unfold perLinePlan at hx
  cases lo with
  | none => cases hx
  | some li =>
    dsimp only at hx
    by_cases hz : li = 0
    · rw [if_pos hz] at hx; cases hx
    · rw [if_neg hz] at hx
      by_cases hu : db.inventory.filter
          (fun u => decide (u.listone = li ∧ u.sku = sku ∧ 0 < u.qty)) = []
      · rw [if_pos hu] at hx; cases hx
      · rw [if_neg hu] at hx
        cases hg : assocGet m (sku, li) with
        | none => rw [hg] at hx; cases hx
        | some v =>
          rw [hg] at hx
          dsimp only at hx
          by_cases hv : v = 0
          · rw [if_pos hv] at hx; cases hx
          · rw [if_neg hv] at hx
            rcases List.mem_map.mp hx with ⟨u, _, rfl⟩
            exact ⟨li, v, rfl, hz, hg, hv, rfl⟩

/-- Within one line the unit loads are distinct, so the planned triples
differ in `udc`. -/
theorem perLine_pairwise (db : DB) (m : List ((String × Int) × Nat)) (sku : String)
    (lo : Option Int)
    (hinv : (db.inventory.map (fun u => (u.udc, u.sku, u.listone))).Nodup) :
    (perLinePlan db m sku lo).Pairwise planDistinct := by
  unfold perLinePlan
  cases lo with
  | none => exact List.Pairwise.nil
  | some li =>
    dsimp only
    by_cases hz : li = 0
    · rw [if_pos hz]; exact List.Pairwise.nil
    · rw [if_neg hz]
      by_cases hu : db.inventory.filter
          (fun u => decide (u.listone = li ∧ u.sku = sku ∧ 0 < u.qty)) = []
      · rw [if_pos hu]; exact List.Pairwise.nil
      · rw [if_neg hu]
        cases hg : assocGet m (sku, li) with
        | none => exact List.Pairwise.nil
        | some v =>
          dsimp only
          by_cases hv : v = 0
          · rw [if_pos hv]; exact List.Pairwise.nil
          · rw [if_neg hv]
            rw [List.pairwise_map]
            have hinv2 : db.inventory.Pairwise (fun a b =>
                (a.udc, a.sku, a.listone) ≠ (b.udc, b.sku, b.listone)) := by
              have h0 : (db.inventory.map (fun u => (u.udc, u.sku, u.listone))).Pairwise
                  (fun a b => a ≠ b) := hinv
              exact List.pairwise_map.mp h0
            have hsubl : (db.inventory.filter
                (fun u => decide (u.listone = li ∧ u.sku = sku ∧ 0 < u.qty))).Pairwise
                (fun a b => (a.udc, a.sku, a.listone) ≠ (b.udc, b.sku, b.listone)) :=
              hinv2.sublist (List.filter_sublist _)
            refine hsubl.imp_of_mem ?_
            intro u1 u2 h1 h2 hne
            rcases of_decide_eq_true (List.mem_filter.mp h1).2 with ⟨hl1, hs1, _⟩
            rcases of_decide_eq_true (List.mem_filter.mp h2).2 with ⟨hl2, hs2, _⟩
            intro hcon
            apply hne
            have hudc : u1.udc = u2.udc := hcon.2.1
            rw [hudc, hs1, hs2, hl1, hl2]

/-- Plans of two lines with different `(sku, listone)` keys carry
different mission item ids (the map's bindings come from distinct items). -/
theorem perLine_cross (db : DB) (m : List ((String × Int) × Nat))
    (hbind : ∀ p ∈ m, ∃ it, it ∈ db.items ∧ it.id = p.2 ∧ it.sku = p.1.1 ∧
      it.listone = some p.1.2)
    (hids : (db.items.map (fun i => i.id)).Nodup)
    (a b : String × Option Int) (hne : a ≠ b)
    (x : CheckPlan) (hx : x ∈ perLinePlan db m a.1 a.2)
    (y : CheckPlan) (hy : y ∈ perLinePlan db m b.1 b.2) :
    planDistinct x y := by
  rcases mem_perLinePlan db m a.1 a.2 x hx with ⟨li1, v1, he1, hz1, hg1, hv1, hx1⟩
  rcases mem_perLinePlan db m b.1 b.2 y hy with ⟨li2, v2, he2, hz2, hg2, hv2, hy1⟩
  intro hcon
  have hveq : v1 = v2 := by rw [← hx1, ← hy1]; exact hcon.1
  rcases hbind _ (assocGet_mem m (a.1, li1) v1 hg1) with ⟨it1, hit1, hid1, hsku1, hlo1⟩
  rcases hbind _ (assocGet_mem m (b.1, li2) v2 hg2) with ⟨it2, hit2, hid2, hsku2, hlo2⟩
  have hsku1b : it1.sku = a.1 := hsku1
  have hsku2b : it2.sku = b.1 := hsku2
  have hlo1b : it1.listone = some li1 := hlo1
  have hlo2b : it2.listone = some li2 := hlo2
  have hit : it1 = it2 :=
    List.inj_on_of_nodup_map hids hit1 hit2 (by rw [hid1, hid2, hveq])
  apply hne
  have h1 : a.1 = b.1 := by rw [← hsku1b, ← hsku2b, hit]
  have h2 : a.2 = b.2 := by rw [he1, he2, ← hlo1b, ← hlo2b, hit]
  exact Prod.ext h1 h2

theorem planChecks_pairwise (db : DB) (mid : Nat) (ls : List (String × Option Int))
    (hids : (db.items.map (fun i => i.id)).Nodup)
    (hinv : (db.inventory.map (fun u => (u.udc, u.sku, u.listone))).Nodup)
    (hl : ls.Pairwise (fun a b => a ≠ b)) :
    (planChecks db mid ls).Pairwise planDistinct := by
  unfold planChecks
  rw [List.pairwise_flatten]
  constructor
  · intro block hblock
    rcases List.mem_map.mp hblock with ⟨sl, _, rfl⟩
    exact perLine_pairwise db _ sl.1 sl.2 hinv
  · rw [List.pairwise_map]
    refine hl.imp_of_mem ?_
    intro a b _ _ hne x hx y hy
    exact perLine_cross db _ (missionItemsMap_binding db mid) hids a b hne x hx y hy

/-- The rows inserted for a plan, with the ids the autoincrement counter
assigns. -/
def planRows (start : Nat) (mission_id : Nat) : List CheckPlan → List PositionCheck
  | [] => []
  | p :: rest =>
    ⟨start, mission_id, p.mission_item_id, some p.udc, some p.listone, p.position_code,
      "TO_CHECK", Option.none, Option.none, Option.none, Option.none⟩ ::
      planRows (start + 1) mission_id rest

theorem insertChecks_checks (db : DB) (mid : Nat) (plan : List CheckPlan) :
    (insertChecks db mid plan).checks = db.checks ++ planRows db.nextCheckId mid plan := by
  induction plan generalizing db with
  | nil => simp [insertChecks, planRows]
  | cons p rest ih =>
    show (insertChecks _ mid rest).checks = _
    rw [ih]
    simp [planRows, List.append_assoc]

theorem mem_planRows (s mid : Nat) (plan : List CheckPlan) (x : PositionCheck)
    (hx : x ∈ planRows s mid plan) :
    ∃ p ∈ plan, x.mission_item_id = p.mission_item_id ∧ x.udc = some p.udc ∧
      x.position_code = p.position_code := by
  induction plan generalizing s with
  | nil => cases hx
  | cons p rest ih =>
    rcases List.mem_cons.mp hx with rfl | h
    · exact ⟨p, List.mem_cons_self p rest, rfl, rfl, rfl⟩
    · rcases ih (s + 1) h with ⟨q, hq, h1, h2, h3⟩
      exact ⟨q, List.mem_cons_of_mem p hq, h1, h2, h3⟩

theorem planRows_pairwise (s mid : Nat) (plan : List CheckPlan)
    (h : plan.Pairwise planDistinct) :
    (planRows s mid plan).Pairwise checkDistinct := by
  induction plan generalizing s with
  | nil => exact List.Pairwise.nil
  | cons p rest ih =>
    rcases List.pairwise_cons.mp h with ⟨hp, ht⟩
    refine List.Pairwise.cons ?_ (ih (s + 1) ht)
    intro y hy
    rcases mem_planRows (s + 1) mid rest y hy with ⟨q, hq, h1, h2, h3⟩
    intro hcon
    exact hp q hq ⟨hcon.1.trans h1, Option.some_inj.mp (hcon.2.1.trans h2),
      hcon.2.2.trans h3⟩

/-- C8, amended.  Generation performs no dedup of
`(mission_item, unit_load, position_code)` triples; the no-two-rows-share-
a-triple property holds only under the preconditions the counterexample
shows to be necessary: the input shortfall/grouped lines have pairwise
distinct `(sku, listone)` pairs (and inventory rows are unique per
`(udc, sku, listone)`, item ids unique — both schema-level facts).  Under
those hypotheses both the single-cesta and the batch path insert rows
that are pairwise distinct on the triple. -/
theorem C8_amended (db : DB) (mid : Nat) (lines : List MissingLine)
    (blines : List GroupedLine)
    (hids : (db.items.map (fun i => i.id)).Nodup)
    (hinv : (db.inventory.map (fun u => (u.udc, u.sku, u.listone))).Nodup)
    (hl : (lines.map (fun l => (l.sku, l.listone))).Pairwise (fun a b => a ≠ b))
    (hb : (blines.map (fun l => (l.sku, l.listone))).Pairwise (fun a b => a ≠ b)) :
    ((generatePositionChecks db mid lines).2.checks.drop db.checks.length).Pairwise
      checkDistinct ∧
    ((generatePositionChecksBatch db mid blines).2.checks.drop db.checks.length).Pairwise
      checkDistinct := by
  constructor
  · have hplan := planChecks_pairwise db mid (lines.map (fun l => (l.sku, l.listone)))
      hids hinv hl
    show ((insertChecks db mid _).checks.drop db.checks.length).Pairwise checkDistinct
    rw [insertChecks_checks, List.drop_left]
    exact planRows_pairwise _ mid _ hplan
  · have hplan := planChecks_pairwise db mid (blines.map (fun l => (l.sku, l.listone)))
      hids hinv hb
    have hperm := List.perm_insertionSort
      (fun a b : CheckPlan => a.position_code ≤ b.position_code)
      (planChecks db mid (blines.map (fun l => (l.sku, l.listone))))
    have hsorted := (hperm.pairwise_iff (fun h => planDistinct_symm h)).mpr hplan
    show ((insertChecks db mid _).checks.drop db.checks.length).Pairwise checkDistinct
    rw [insertChecks_checks, List.drop_left]
    exact planRows_pairwise _ mid _ hsorted

def dbC8w : DB where
  missions := [⟨1, "PSM-20250101-001", "X1", some 1, "OPEN", "sys", false, false⟩]
  items := [⟨1, 1, "O1", 1, "S1", some 7, 2, 0, 2, 0, false⟩,
    ⟨2, 1, "O1", 1, "S2", some 8, 1, 0, 1, 0, false⟩]
  checks := []
  orders := []
  orderItems := []
  inventory := [⟨"U1", "S1", 7, 2⟩, ⟨"U2", "S1", 7, 1⟩, ⟨"U3", "S2", 8, 5⟩]
  locations := [⟨"U1", "86265-21-1-3"⟩]
  nextMissionId := 2
  nextItemId := 3
  nextCheckId := 1

def linesC8 : List MissingLine :=
  [⟨"O1", 1, some 7, "S1", 2, 0, 2, Option.none⟩,
   ⟨"O1", 1, some 8, "S2", 1, 0, 1, Option.none⟩]

def blinesC8 : List GroupedLine :=
  [⟨"S1", some 7, "O1", 1, 2, 0, 2, ["X1"]⟩,
   ⟨"S2", some 8, "O1", 1, 1, 0, 1, ["X1"]⟩]

/-- C8, witness for the amended theorem: two lines with distinct
`(sku, listone)` over three inventory rows produce rows without a
repeated triple, on both paths. -/
theorem C8_amended_witness :
    ((generatePositionChecks dbC8w 1 linesC8).2.checks.drop
      dbC8w.checks.length).Pairwise checkDistinct ∧
    ((generatePositionChecksBatch dbC8w 1 blinesC8).2.checks.drop
      dbC8w.checks.length).Pairwise checkDistinct :=
  C8_amended dbC8w 1 linesC8 blinesC8 (by decide) (by decide) (by decide) (by decide)

end PSB
